import Mathlib

/-!
A shallow embedding of the table-processing core of the
Real-Time-Data-Pipeline-and-Analytical-Processing repository:
`src/validator.py` (class `DataValidator`), `src/transformer.py`
(class `DataTransformer`) and `src/analyzer.py` (class `DataAnalyzer`).

Modelling conventions, used throughout:
* a pandas `DataFrame` is a `Table`: an ordered list of column names plus an
  ordered list of rows; every row carries its original positional index
  (the pandas index label), which filtering and sorting preserve, exactly as
  pandas does;
* a cell is a `Val`: `Val.null` models NA/NaN/NaT, `Val.num` a numeric value
  (idealized as an exact rational, standing for the float the code computes),
  `Val.str` a string and `Val.time` a timestamp (an abstract instant, counted
  in hours since the epoch so that `.dt.hour` is arithmetic on it);
* the library coercers `pd.to_datetime(·, errors='coerce')` and
  `pd.to_numeric(·, errors='coerce')` are external to the repository, so they
  are passed to the validator as explicit parameters (`pt`, `pn`); a value on
  which the parameter returns `none` coerces to null, exactly the observable
  contract the code relies on.  `defaultParseTime` / `defaultParseNum` are the
  concrete instantiations used by closed witnesses: a value already of the
  target type parses to itself, everything else (including null) fails;
* Python code that raises (strict `pd.to_datetime`, arithmetic on a string
  cell, a zero division) is embedded in `Except String`, the `.error` case
  standing for the raised exception and its text;
* irrational float results (`std`, `skewness`) are represented through
  `qSqrt`, a rational stand-in for the float square root (exact on perfect
  squares); no theorem below depends on the numeric value of such a field.
-/

/-- A cell value of a table. -/
inductive Val where
  | null : Val
  | num (q : ℚ) : Val
  | str (s : String) : Val
  | time (t : ℤ) : Val
deriving DecidableEq, Repr

/-- A row: the original pandas index label `idx` plus cells keyed by column name. -/
structure Row where
  idx : ℕ
  cells : List (String × Val)
deriving DecidableEq, Repr

/-- A table (pandas `DataFrame`): ordered column names and ordered rows. -/
structure Table where
  cols : List String
  rows : List Row
deriving DecidableEq, Repr

/-- Read a cell from an association list of cells; an absent key reads as null
(columns are always materialized by the table-level code paths). -/
def getCells : List (String × Val) → String → Val
  | [], _ => Val.null
  | (k, w) :: rest, c => if k = c then w else getCells rest c

/-- Write a cell: replace the first entry with the key, or append a new entry. -/
def setCells : List (String × Val) → String → Val → List (String × Val)
  | [], c, v => [(c, v)]
  | (k, w) :: rest, c, v =>
      if k = c then (k, v) :: rest else (k, w) :: setCells rest c v

/-- Read a cell of a row by column name. -/
def Row.get (r : Row) (c : String) : Val := getCells r.cells c

/-- Write a cell of a row by column name (the index label is unchanged). -/
def Row.set (r : Row) (c : String) (v : Val) : Row :=
  { r with cells := setCells r.cells c v }

/-- The column `c` of a table, as the list of its cells in row order. -/
def Table.col (t : Table) (c : String) : List Val := t.rows.map (fun r => r.get c)

/-- `numCell v` is the numeric content of a cell, `none` for anything else. -/
def numCell : Val → Option ℚ
  | Val.num q => some q
  | _ => none

/-- Whether a cell is null (pandas `isna`). -/
def isNullV : Val → Bool
  | Val.null => true
  | _ => false

/-- Whether a cell is a string or a timestamp: arithmetic and quantiles on such
a cell raise in the code, so columns fed to them must be free of these. -/
def isStrOrTime : Val → Bool
  | Val.str _ => true
  | Val.time _ => true
  | _ => false

instance {ε α : Type} [DecidableEq ε] [DecidableEq α] : DecidableEq (Except ε α) :=
  fun a b =>
    match a, b with
    | Except.error e, Except.error f =>
        if h : e = f then isTrue (h ▸ rfl) else isFalse (fun hc => h (by cases hc; rfl))
    | Except.ok x, Except.ok y =>
        if h : x = y then isTrue (h ▸ rfl) else isFalse (fun hc => h (by cases hc; rfl))
    | Except.error _, Except.ok _ => isFalse (fun hc => by cases hc)
    | Except.ok _, Except.error _ => isFalse (fun hc => by cases hc)

theorem getCells_setCells_self (l : List (String × Val)) (c : String) (v : Val) :
    getCells (setCells l c v) c = v := by
  induction l with
  | nil => simp [setCells, getCells]
  | cons h t ih =>
      by_cases hc : h.1 = c
      · simp [setCells, hc, getCells]
      · simp [setCells, hc, getCells, ih]

theorem getCells_setCells_ne (l : List (String × Val)) (c c' : String) (v : Val)
    (h : c ≠ c') : getCells (setCells l c v) c' = getCells l c' := by
  induction l with
  | nil => simp [setCells, getCells, h]
  | cons hd t ih =>
      by_cases hc : hd.1 = c
      · simp [setCells, hc, getCells, if_neg h]
      · simp [setCells, hc, getCells, ih]

theorem Row.get_set_self (r : Row) (c : String) (v : Val) :
    (r.set c v).get c = v := getCells_setCells_self r.cells c v

theorem Row.get_set_ne (r : Row) (c c' : String) (v : Val) (h : c ≠ c') :
    (r.set c v).get c' = r.get c' := getCells_setCells_ne r.cells c c' v h

theorem Row.idx_set (r : Row) (c : String) (v : Val) :
    (r.set c v).idx = r.idx := rfl

/-- Rational stand-in for the float square root the code obtains from numpy:
exact whenever the argument is the square of a rational, a floor-based
approximation otherwise.  No theorem in this file depends on its value. -/
def qSqrt (q : ℚ) : ℚ :=
  (Nat.sqrt q.num.toNat : ℚ) / (Nat.sqrt q.den : ℚ)

/-- Round to two decimal places (models the `.round(2)` calls; half rounds up,
a benign idealization of float rounding). -/
def qRound2 (q : ℚ) : ℚ := (⌊q * 100 + 1/2⌋ : ℚ) / 100

/-- Mean of a list of rationals (`none` for the empty list, where pandas
produces NaN). -/
def listMean (xs : List ℚ) : Option ℚ :=
  if xs.length = 0 then none else some (xs.sum / xs.length)

/-- The pandas `Series.quantile(q)` with the default linear interpolation:
on the sorted non-null values `v₀ … v_{n−1}`, the value at fractional
position `q·(n−1)`.  `none` when there is no data (pandas: NaN). -/
def quantileQ (xs : List ℚ) (q : ℚ) : Option ℚ :=
  let s := xs.mergeSort (fun a b => decide (a ≤ b))
  match s.length with
  | 0 => none
  | Nat.succ m =>
      let pos : ℚ := q * m
      let i : ℕ := ⌊pos⌋.toNat
      let lo := s.getD i 0
      let hi := s.getD (min (i + 1) m) 0
      some (lo + (pos - i) * (hi - lo))

/-! ### Validator — `src/validator.py`, class `DataValidator` -/

/-- `DataValidator.validation_rules`: inclusive `[min, max]` per column, with
the numeric bounds instantiated from `config.py`. -/
def validation_rules : List (String × ℚ × ℚ) :=
  [("temperature_celsius", -50, 60),
   ("humidity_percent", 0, 100),
   ("air_quality_index", 0, 500),
   ("noise_level_db", 0, 130),
   ("lighting_lux", 0, 100000),
   ("crowd_density", 0, 1000),
   ("stress_level", 0, 100),
   ("sleep_hours", 0, 24),
   ("mood_score", 0, 5),
   ("mental_health_status", 0, 1)]

/-- `DataValidator.required_columns` (humidity is deliberately left out). -/
def required_columns : List String :=
  ["location_id", "timestamp", "stress_level", "sleep_hours", "mood_score",
   "mental_health_status", "noise_level_db", "lighting_lux", "crowd_density",
   "temperature_celsius"]

/-- The environmental column family used by the structural and completeness
checks. -/
def env_columns : List String :=
  ["temperature_celsius", "humidity_percent", "air_quality_index",
   "noise_level_db", "lighting_lux"]

/-- `DataValidator.validate_file_structure`: empty-table check, required
columns present, at least one environmental column present. -/
def validate_file_structure (df : Table) : Bool × List String :=
  if df.rows.isEmpty || df.cols.isEmpty then (false, ["File is empty"])
  else
    let missing := required_columns.filter (fun c => !(decide (c ∈ df.cols)))
    let e1 := if missing.isEmpty then []
      else ["Missing required columns: " ++ String.intercalate ", " missing]
    let hasEnv := env_columns.any (fun c => decide (c ∈ df.cols))
    let e2 := if hasEnv then [] else ["No environmental data columns found"]
    let errs := e1 ++ e2
    (errs.isEmpty, errs)

/-- Coerce one cell with a parser (`errors='coerce'`): a parse failure
becomes null. -/
def coerceWith {α : Type} (mk : α → Val) (p : Val → Option α) (v : Val) : Val :=
  match p v with
  | some a => mk a
  | none => Val.null

/-- Rewrite a whole column of a table cell by cell. -/
def Table.mapCol (t : Table) (c : String) (f : Val → Val) : Table :=
  { t with rows := t.rows.map (fun r => r.set c (f (r.get c))) }

/-- The textual form Python's `astype(str)` gives a cell (`NaN` prints as
`nan`; numeric formatting is idealized). -/
def valToPyStr : Val → String
  | Val.null => "nan"
  | Val.str s => s
  | Val.num q => toString q
  | Val.time t => toString t

/-- `astype(str)` on one cell. -/
def astypeStr (v : Val) : Val := Val.str (valToPyStr v)

/-- The column list `numeric_columns` declared in
`DataValidator.validate_data_types`. -/
def numeric_coercion_columns : List String := ["temperature", "humidity", "pressure"]

/-- One step of the declared-numeric-column loop of `validate_data_types`:
coerce the column when present and append the warning line for a positive
failure count. -/
def numericCoerceStep (pn : Val → Option ℚ) (acc : Table × List String)
    (c : String) : Table × List String :=
  if decide (c ∈ acc.1.cols) then
    let bad := (acc.1.col c).countP (fun v => (pn v).isNone)
    (acc.1.mapCol c (coerceWith Val.num pn),
     acc.2 ++ (if bad > 0 then
       ["Found " ++ toString bad ++ " invalid " ++ c ++ " values, converted to NaN"]
     else []))
  else acc

/-- `DataValidator.validate_data_types`: `location_id` cast to string, the
timestamp column coerced with `pt`, the declared numeric columns coerced with
`pn`.  Returns the coerced table, the error descriptions, and the
`logger.warning` lines emitted for the numeric columns. -/
def validate_data_types (pt : Val → Option ℤ) (pn : Val → Option ℚ)
    (df : Table) : Table × List String × List String :=
  let df1 := if decide ("location_id" ∈ df.cols)
    then df.mapCol "location_id" astypeStr else df
  let step2 : Table × List String :=
    if decide ("timestamp" ∈ df1.cols) then
      let bad := (df1.col "timestamp").countP (fun v => (pt v).isNone)
      (df1.mapCol "timestamp" (coerceWith Val.time pt),
       if bad > 0 then ["Found " ++ toString bad ++ " invalid timestamp formats"]
       else [])
    else (df1, [])
  let step3 := numeric_coercion_columns.foldl (numericCoerceStep pn) (step2.1, [])
  (step3.1, step2.2, step3.2)

/-- Invalidity of a `location_id` cell: null, empty string, or the literal
text `nan` (the code checks `isna | astype(str)=='' | astype(str)=='nan'`). -/
def locIdInvalid (v : Val) : Bool :=
  isNullV v || decide (valToPyStr v = "") || decide (valToPyStr v = "nan")

/-- Per-column required-field invalidity of one cell. -/
def reqCellInvalid (c : String) (v : Val) : Bool :=
  if c = "location_id" then locIdInvalid v else isNullV v

/-- Output shape shared by the two row-partitioning validation steps. -/
structure PartitionOut where
  valid : Table
  invalid : Table
  errors : List String
deriving DecidableEq, Repr

/-- One step of the required-column mask accumulation: a present column ORs
its per-row invalidity into the mask; an absent required column marks every
row invalid (`invalid_mask |= True`). -/
def reqMaskStep (df : Table) (acc : List Bool × List String) (c : String) :
    List Bool × List String :=
  if decide (c ∈ df.cols) then
    let colInv := df.rows.map (fun r => reqCellInvalid c (r.get c))
    let cnt := colInv.count true
    (acc.1.zipWith (fun a b => a || b) colInv,
     acc.2 ++ (if cnt > 0 then
       ["Found " ++ toString cnt ++ " rows with missing " ++ c] else []))
  else
    (acc.1.map (fun _ => true),
     acc.2 ++ ["Required column \x27" ++ c ++ "\x27 is missing from dataset"])

/-- Whether every available environmental cell of the row is null. -/
def rowAllEnvNull (avail : List String) (r : Row) : Bool :=
  avail.all (fun c => isNullV (r.get c))

/-- Keep the rows whose mask entry equals `keep` (pandas boolean indexing). -/
def filterByMask (rows : List Row) (mask : List Bool) (keep : Bool) : List Row :=
  ((rows.zip mask).filter (fun p => p.2 == keep)).map (fun p => p.1)

/-- `DataValidator.validate_required_fields`: builds the per-row invalid mask
over all required columns, then additionally invalidates surviving rows whose
available environmental readings are all null, and partitions the table. -/
def validate_required_fields (df : Table) : PartitionOut :=
  let init : List Bool × List String := (df.rows.map (fun _ => false), [])
  let step1 := required_columns.foldl (reqMaskStep df) init
  let availEnv := env_columns.filter (fun c => decide (c ∈ df.cols))
  let step2 : List Bool × List String :=
    if !availEnv.isEmpty && !(step1.1.all (fun b => b)) then
      let envNull := df.rows.map (rowAllEnvNull availEnv)
      let extra := ((step1.1.zip envNull).countP (fun p => !p.1 && p.2))
      (step1.1.zipWith (fun m e => m || e) envNull,
       step1.2 ++ (if extra > 0 then
         ["Found " ++ toString extra ++ " rows with all environmental readings missing"]
       else []))
    else step1
  { valid := { df with rows := filterByMask df.rows step2.1 false },
    invalid := { df with rows := filterByMask df.rows step2.1 true },
    errors := step2.2 }

/-- Whether a non-null cell value falls outside the inclusive range. -/
def rangeOut (lo hi : ℚ) (v : Val) : Bool :=
  match v with
  | Val.num q => decide (q < lo) || decide (q > hi)
  | _ => false

/-- `DataValidator.validate_sensor_ranges`: per rule column present in the
table, rows with a non-null out-of-range value; violations across columns are
ORed per row, and the table is partitioned accordingly. -/
def validate_sensor_ranges (df : Table) : PartitionOut :=
  let present := validation_rules.filter (fun rule => decide (rule.1 ∈ df.cols))
  let errors := present.filterMap (fun rule =>
    let cnt := (df.col rule.1).countP (rangeOut rule.2.1 rule.2.2)
    if cnt > 0 then
      some ("Found " ++ toString cnt ++ " " ++ rule.1 ++
        " readings out of range (" ++ toString rule.2.1 ++ " to " ++
        toString rule.2.2 ++ ")")
    else none)
  let combined := df.rows.map (fun r =>
    present.any (fun rule => rangeOut rule.2.1 rule.2.2 (r.get rule.1)))
  { valid := { df with rows := filterByMask df.rows combined false },
    invalid := { df with rows := filterByMask df.rows combined true },
    errors := errors }

/-- `df.dropna(how='all')`: drop the rows whose every cell is null. -/
def dropAllNullRows (df : Table) : Table :=
  { df with rows := df.rows.filter (fun r => !(df.cols.all (fun c => isNullV (r.get c)))) }

/-- The empty `pd.DataFrame()` returned on rejection. -/
def emptyTable : Table := { cols := [], rows := [] }

/-- Observable outcome of `DataValidator.validate_data`: the returned pair
`(valid table, accepted)` plus whether `quarantine_file` was invoked. -/
structure ValidateOutcome where
  result : Table
  accepted : Bool
  quarantined : Bool
deriving DecidableEq, Repr

/-- `DataValidator.validate_data`: empty-row removal, structural check (fatal,
quarantining), type coercion, required-field partition, range partition, and
the final >50% quarantine decision, whose `total_rows` is the length of the
original `df` argument — before empty-row removal. -/
def validate_data (pt : Val → Option ℤ) (pn : Val → Option ℚ) (df : Table) :
    ValidateOutcome :=
  let dfCleaned := dropAllNullRows df
  if dfCleaned.rows.isEmpty then
    { result := emptyTable, accepted := false, quarantined := false }
  else if !(validate_file_structure dfCleaned).1 then
    { result := emptyTable, accepted := false, quarantined := true }
  else
    let typed := (validate_data_types pt pn dfCleaned).1
    let req := validate_required_fields typed
    let rng := validate_sensor_ranges req.valid
    let total : ℕ := df.rows.length
    let validN : ℕ := rng.valid.rows.length
    if ((total : ℚ) - (validN : ℚ)) > (total : ℚ) * 0.5 then
      { result := emptyTable, accepted := false, quarantined := true }
    else
      { result := rng.valid, accepted := decide (0 < validN), quarantined := false }

/-- Concrete instantiation of the timestamp coercer for closed evaluations:
a timestamp parses to itself, anything else (null included) fails. -/
def defaultParseTime : Val → Option ℤ
  | Val.time t => some t
  | _ => none

/-- Concrete instantiation of the numeric coercer for closed evaluations. -/
def defaultParseNum : Val → Option ℚ
  | Val.num q => some q
  | _ => none

/-! ### Transformer — `src/transformer.py`, class `DataTransformer` -/

/-- The repeated-underscore collapse loop of `standardize_column_names`. -/
def collapseUnderscores : List Char → List Char
  | [] => []
  | [c] => [c]
  | c :: d :: rest =>
      if c = '_' && d = '_' then collapseUnderscores ('_' :: rest)
      else c :: collapseUnderscores (d :: rest)
termination_by l => l.length

/-- Header canonicalization: lowercase, trim, spaces and hyphens to
underscores, any other non-alphanumeric character to underscore, repeated
underscores collapsed, leading/trailing underscores stripped. -/
def canonName (s : String) : String :=
  let s1 := ((s.toLower.trim).replace " " "_").replace "-" "_"
  let l := s1.toList.map (fun c => if c.isAlphanum || c = '_' then c else '_')
  let l2 := collapseUnderscores l
  String.mk (((l2.dropWhile (fun c => c = '_')).reverse.dropWhile (fun c => c = '_')).reverse)

/-- `DataTransformer.standardize_column_names`. -/
def standardize_column_names (df : Table) : Table :=
  { cols := df.cols.map canonName,
    rows := df.rows.map (fun r =>
      { r with cells := r.cells.map (fun p => (canonName p.1, p.2)) }) }

/-- `row.get(col, default)` as used by the per-row scoring loops: an absent
column yields the default, a null cell yields `none` (NaN enters the
arithmetic), a numeric cell its value; arithmetic on any other cell raises. -/
def getFactor (r : Row) (c : String) (d : ℚ) : Except String (Option ℚ) :=
  match r.cells.lookup c with
  | none => Except.ok (some d)
  | some Val.null => Except.ok none
  | some (Val.num q) => Except.ok (some q)
  | some _ => Except.error ("unsupported operand type in " ++ c)

/-- One row of `DataTransformer.calculate_mental_health_risk`.  Python's
`min(x, 1.0)` keeps a NaN first argument, while `max(0, y)` discards a NaN
second argument, so a NaN stress poisons the score but a NaN sleep or mood
contributes zero risk. -/
def mental_health_risk_row (r : Row) : Except String (Option ℚ) := do
  let stress ← getFactor r "stress_level" 0
  let sleep ← getFactor r "sleep_hours" 8
  let mood ← getFactor r "mood_score" 3
  let sleep_risk : ℚ := match sleep with
    | none => 0
    | some q => max 0 ((8 - q) / 8)
  let mood_risk : ℚ := match mood with
    | none => 0
    | some q => max 0 ((3 - q) / 3)
  pure (stress.map (fun q => (min (q / 100) 1 + sleep_risk + mood_risk) / 3))

/-- One row of `DataTransformer.calculate_comfort_index` (a NaN temperature or
humidity clamps to 1 under Python's `max(0, min(1, nan))`, a NaN noise gives
0; all real inputs clamp into [0,1]). -/
def comfort_index_row (r : Row) : Except String ℚ := do
  let temp ← getFactor r "temperature_celsius" 22
  let humidity ← getFactor r "humidity_percent" 50
  let noise ← getFactor r "noise_level_db" 50
  let tc : ℚ := match temp with
    | none => 1
    | some q => max 0 (min 1 (1 - |q - 22| / 10))
  let hc : ℚ := match humidity with
    | none => 1
    | some q => max 0 (min 1 (1 - |q - 50| / 50))
  let nc : ℚ := match noise with
    | none => 0
    | some q => max 0 (min 1 (max 0 ((70 - q) / 70)))
  pure ((tc + hc + nc) / 3)

/-- Strict `pd.to_datetime` on one cell: a null stays NaT, a timestamp or a
number converts, a string raises (string parsing is not modelled). -/
def toDatetimeStrict : Val → Except String (Option ℤ)
  | Val.null => Except.ok none
  | Val.time t => Except.ok (some t)
  | Val.num q => Except.ok (some ⌊q⌋)
  | Val.str s => Except.error ("could not parse timestamp " ++ s)

/-- Re-embed an optional number as a cell value. -/
def optNumVal : Option ℚ → Val
  | none => Val.null
  | some q => Val.num q

/-- Re-embed an optional `.dt` accessor result as a cell value. -/
def optIntVal : Option ℤ → Val
  | none => Val.null
  | some t => Val.num (t : ℚ)

/-- Hour-of-day of a modelled instant (instants count hours since the epoch). -/
def hourOfInstant (t : ℤ) : ℤ := t.emod 24

/-- Day-of-week of a modelled instant, Monday = 0 (the epoch day was a
Thursday). -/
def dayOfWeekOfInstant (t : ℤ) : ℤ := (t.ediv 24 + 3).emod 7

/-- Calendar month of a modelled instant (proleptic Gregorian, via the civil
from-days algorithm). -/
def monthOfInstant (t : ℤ) : ℤ :=
  let z := t.ediv 24 + 719468
  let era := z.ediv 146097
  let doe := z - era * 146097
  let yoe := (doe - doe / 1460 + doe / 36524 - doe / 146096) / 365
  let doy := doe - (365 * yoe + yoe / 4 - yoe / 100)
  let mp := (5 * doy + 2) / 153
  if mp < 10 then mp + 3 else mp - 9

/-- Weekday name, from the Monday = 0 encoding (pandas `day_name()`). -/
def dayNameOf (d : ℤ) : String :=
  if d = 0 then "Monday" else if d = 1 then "Tuesday"
  else if d = 2 then "Wednesday" else if d = 3 then "Thursday"
  else if d = 4 then "Friday" else if d = 5 then "Saturday" else "Sunday"

/-- The three mental-health source columns gating the risk column. -/
def mh_source_columns : List String := ["stress_level", "sleep_hours", "mood_score"]

/-- The three comfort source columns gating the comfort column. -/
def comfort_source_columns : List String :=
  ["temperature_celsius", "humidity_percent", "noise_level_db"]

/-- Count of non-null cells of the row over the given columns. -/
def countRowNotNull (avail : List String) (r : Row) : ℕ :=
  (avail.filter (fun c => !(isNullV (r.get c)))).length

/-- The data-quality-score stage of `add_derived_columns`. -/
def add_derived_env (df : Table) : Table :=
  let availEnv := env_columns.filter (fun c => decide (c ∈ df.cols))
  if availEnv.isEmpty then df
  else
    { cols := df.cols ++ ["data_quality_score"],
      rows := df.rows.map (fun r => r.set "data_quality_score"
        (Val.num ((countRowNotNull availEnv r : ℚ) / (availEnv.length : ℚ)))) }

/-- One row of the mental-health-risk assignment. -/
def mhRowStep (r : Row) : Except String Row := do
  let v ← mental_health_risk_row r
  pure (r.set "mental_health_risk" (optNumVal v))

/-- The mental-health-risk stage of `add_derived_columns`. -/
def add_derived_mh (df : Table) : Except String Table :=
  if mh_source_columns.all (fun c => decide (c ∈ df.cols)) then
    match df.rows.mapM mhRowStep with
    | Except.error e => Except.error e
    | Except.ok rows =>
        Except.ok { cols := df.cols ++ ["mental_health_risk"], rows := rows }
  else Except.ok df

/-- One row of the comfort-index assignment. -/
def comfortRowStep (r : Row) : Except String Row := do
  let v ← comfort_index_row r
  pure (r.set "comfort_index" (Val.num v))

/-- The comfort-index stage of `add_derived_columns`. -/
def add_derived_comfort (df : Table) : Except String Table :=
  if comfort_source_columns.all (fun c => decide (c ∈ df.cols)) then
    match df.rows.mapM comfortRowStep with
    | Except.error e => Except.error e
    | Except.ok rows =>
        Except.ok { cols := df.cols ++ ["comfort_index"], rows := rows }
  else Except.ok df

/-- One row of the hour/day-of-week/month time features
(`pd.to_datetime` raises on an unparseable timestamp cell). -/
def timeRowStep (r : Row) : Except String Row := do
  let t ← toDatetimeStrict (r.get "timestamp")
  pure (((r.set "hour" (optIntVal (t.map hourOfInstant))).set
    "day_of_week" (optIntVal (t.map dayOfWeekOfInstant))).set
    "month" (optIntVal (t.map monthOfInstant)))

/-- The time-features stage of `add_derived_columns`. -/
def add_derived_time (df : Table) : Except String Table :=
  if decide ("timestamp" ∈ df.cols) then
    match df.rows.mapM timeRowStep with
    | Except.error e => Except.error e
    | Except.ok rows =>
        Except.ok { cols := df.cols ++ ["hour", "day_of_week", "month"], rows := rows }
  else Except.ok df

/-- `DataTransformer.add_derived_columns`: data-quality score, mental-health
risk, comfort index, and the time features, each gated by the presence of its
source columns. -/
def add_derived_columns (df : Table) : Except String Table :=
  match add_derived_mh (add_derived_env df) with
  | Except.error e => Except.error e
  | Except.ok d2 =>
      match add_derived_comfort d2 with
      | Except.error e => Except.error e
      | Except.ok d3 => add_derived_time d3

/-- `Series.mean()` over a column: raises on a string or timestamp cell
(object-dtype sum), NaN (`none`) when no numeric values remain. -/
def colMean (cells : List Val) : Except String (Option ℚ) :=
  if cells.any isStrOrTime then Except.error "unsupported column dtype for mean"
  else Except.ok (listMean (cells.filterMap numCell))

/-- `Series.max()` over a column, with the same raising behavior. -/
def colMax (cells : List Val) : Except String (Option ℚ) :=
  if cells.any isStrOrTime then Except.error "unsupported column dtype for max"
  else Except.ok (cells.filterMap numCell).maximum

/-- The Fahrenheit-heuristic stage of `normalize_units` (mean > 50 converts
the whole column via `(F − 32)·5/9`; a NaN mean skips). -/
def normalizeTemp (df : Table) : Except String Table :=
  if decide ("temperature_celsius" ∈ df.cols) then
    match colMean (df.col "temperature_celsius") with
    | Except.error e => Except.error e
    | Except.ok (some q) =>
        if q > 50 then
          Except.ok (df.mapCol "temperature_celsius" (fun v =>
            match v with
            | Val.num x => Val.num ((x - 32) * 5 / 9)
            | w => w))
        else Except.ok df
    | Except.ok none => Except.ok df
  else Except.ok df

/-- The fractional-humidity stage of `normalize_units` (max ≤ 1 multiplies
the whole column by 100; a NaN max skips). -/
def normalizeHumidity (df : Table) : Except String Table :=
  if decide ("humidity_percent" ∈ df.cols) then
    match colMax (df.col "humidity_percent") with
    | Except.error e => Except.error e
    | Except.ok (some q) =>
        if q ≤ 1 then
          Except.ok (df.mapCol "humidity_percent" (fun v =>
            match v with
            | Val.num x => Val.num (x * 100)
            | w => w))
        else Except.ok df
    | Except.ok none => Except.ok df
  else Except.ok df

/-- `DataTransformer.normalize_units`: the two column-wide unit heuristics in
order. -/
def normalize_units (df : Table) : Except String Table :=
  match normalizeTemp df with
  | Except.error e => Except.error e
  | Except.ok d1 => normalizeHumidity d1

/-- The nine outlier-capped columns of `DataTransformer.handle_outliers`. -/
def numeric_outlier_columns : List String :=
  ["temperature_celsius", "humidity_percent", "air_quality_index",
   "noise_level_db", "lighting_lux", "crowd_density", "stress_level",
   "sleep_hours", "mood_score"]

/-- First `.loc` pass: raise values below the lower bound to it. -/
def capLower (lo : ℚ) : Val → Val
  | Val.num q => if q < lo then Val.num lo else Val.num q
  | v => v

/-- Second `.loc` pass: lower values above the upper bound to it. -/
def capUpper (hi : ℚ) : Val → Val
  | Val.num q => if q > hi then Val.num hi else Val.num q
  | v => v

/-- Cap one column: Q1/Q3/IQR on the pre-capping non-null values, bounds
`Q1 − 3·IQR` and `Q3 + 3·IQR`, then the two assignment passes.  A column with
no numeric data has NaN bounds (every comparison false) and is unchanged;
quantiles over a string-bearing column raise. -/
def capColumnVals (cells : List Val) : Except String (List Val) :=
  if cells.any isStrOrTime then Except.error "could not compute quantiles"
  else
    let xs := cells.filterMap numCell
    match quantileQ xs (1/4), quantileQ xs (3/4) with
    | some q1, some q3 =>
        let iqr := q3 - q1
        Except.ok ((cells.map (capLower (q1 - 3 * iqr))).map (capUpper (q3 + 3 * iqr)))
    | _, _ => Except.ok cells

/-- Overwrite a column of a row list with the given cells, positionally. -/
def setColumn (rows : List Row) (c : String) (cells : List Val) : List Row :=
  rows.zipWith (fun r v => r.set c v) cells

/-- The per-column loop of `handle_outliers`. -/
def handle_outliers_go (colsList : List String) (tblCols : List String)
    (rows : List Row) : Except String (List Row) :=
  match colsList with
  | [] => Except.ok rows
  | c :: rest =>
      match (if decide (c ∈ tblCols) then
          (capColumnVals (rows.map (fun r => r.get c))).map (setColumn rows c)
        else pure rows) with
      | Except.error e => Except.error e
      | Except.ok rows1 => handle_outliers_go rest tblCols rows1

/-- `DataTransformer.handle_outliers`. -/
def handle_outliers (df : Table) : Except String Table := do
  let rows ← handle_outliers_go numeric_outlier_columns df.cols df.rows
  pure { df with rows := rows }

/-- Row comparator for `sort_values('timestamp')`: timestamps ascending with
nulls last (`na_position='last'`).  The source's default quicksort leaves the
order of equal keys unspecified; the model sorts stably. -/
def tsValLe (a b : Val) : Bool :=
  match a, b with
  | Val.time t, Val.time u => decide (t ≤ u)
  | Val.time _, _ => true
  | _, Val.time _ => false
  | _, _ => true

/-- The comparator applied to two rows through their timestamp cells. -/
def tsLe (a b : Row) : Bool := tsValLe (a.get "timestamp") (b.get "timestamp")

/-- linear interpolation sample at position `x` (the `np.interp` convention:
clamped to the first/last sample value outside the known range). -/
def npInterpGo (x x0 y0 : ℚ) : List (ℚ × ℚ) → ℚ
  | [] => y0
  | (x1, y1) :: rest =>
      if x ≤ x1 then y0 + (y1 - y0) * (x - x0) / (x1 - x0)
      else npInterpGo x x1 y1 rest

/-- Entry point of the `np.interp` model over the (position, value) samples. -/
def npInterp (x : ℚ) : List (ℚ × ℚ) → ℚ
  | [] => 0
  | (x0, y0) :: rest => if x ≤ x0 then y0 else npInterpGo x x0 y0 rest

/-- pandas `_interp_limit` with forward and backward limit 5
(`limit=5, limit_direction='both'`): the null at position `i` stays unfilled
iff the slice `invalid[max(0, i−5) : i+6]` is entirely null. -/
def preservedNaN (cells : List (Option ℚ)) (i : ℕ) : Bool :=
  let lo := i - 5
  (List.range' lo (min (i + 6) cells.length - lo)).all
    (fun j => (cells.getD j none).isNone)

/-- One column pass of `Series.interpolate(method='linear',
limit_direction='both', limit=5)`: every null within reach of the limit is
replaced by the `np.interp` value at its position. -/
def linearInterpLimited (cells : List (Option ℚ)) : List (Option ℚ) :=
  let pts := cells.enum.filterMap (fun p => p.2.map (fun v => ((p.1 : ℚ), v)))
  if pts.isEmpty then cells
  else cells.enum.map (fun p =>
    match p.2 with
    | some v => some v
    | none => if preservedNaN cells p.1 then none else some (npInterp (p.1 : ℚ) pts))

/-- Forward fill with a running last-seen value. -/
def ffillGo (last : Option ℚ) : List (Option ℚ) → List (Option ℚ)
  | [] => []
  | c :: rest =>
      match c with
      | some v => some v :: ffillGo (some v) rest
      | none => last :: ffillGo last rest

/-- `fillna(method='ffill')`. -/
def ffill (cells : List (Option ℚ)) : List (Option ℚ) := ffillGo none cells

/-- `fillna(method='bfill')`. -/
def bfill (cells : List (Option ℚ)) : List (Option ℚ) :=
  (ffillGo none cells.reverse).reverse

/-- The whole per-column fill of `interpolate_missing_values`: limited linear
interpolation, then forward fill, then backward fill. -/
def interpolate_fill (cells : List (Option ℚ)) : List (Option ℚ) :=
  bfill (ffill (linearInterpLimited cells))

/-- Extract a column as optional numbers; interpolation on a string-bearing
(object-dtype) column raises. -/
def cellsToOpt (cells : List Val) : Except String (List (Option ℚ)) :=
  if cells.any isStrOrTime then Except.error "cannot interpolate object dtype"
  else Except.ok (cells.map numCell)

/-- The per-column loop of `interpolate_missing_values` (a column with no
missing value is skipped). -/
def interpolateColStep (rows : List Row) (tblCols : List String) (c : String) :
    Except String (List Row) :=
  if decide (c ∈ tblCols) then
    match cellsToOpt (rows.map (fun r => r.get c)) with
    | Except.error e => Except.error e
    | Except.ok cells =>
        if cells.countP (fun o => o.isNone) > 0 then
          Except.ok (setColumn rows c ((interpolate_fill cells).map optNumVal))
        else Except.ok rows
  else Except.ok rows

def interpolate_cols_go (colsList : List String) (tblCols : List String)
    (rows : List Row) : Except String (List Row) :=
  match colsList with
  | [] => Except.ok rows
  | c :: rest =>
      match interpolateColStep rows tblCols c with
      | Except.error e => Except.error e
      | Except.ok rows1 => interpolate_cols_go rest tblCols rows1

/-- The sort performed at the top of `interpolate_missing_values`
(`sort_values('timestamp')`, applied only when the column exists). -/
def sortRowsByTs (df : Table) : List Row :=
  if decide ("timestamp" ∈ df.cols) then df.rows.mergeSort tsLe else df.rows

/-- `DataTransformer.interpolate_missing_values`: sort by timestamp (when the
column exists), then fill the five environmental columns.  The sorted row
list is what the function returns. -/
def interpolate_missing_values (df : Table) : Except String Table := do
  let rows ← interpolate_cols_go env_columns df.cols (sortRowsByTs df)
  pure { df with rows := rows }

/-- `DataTransformer.add_metadata`: constant provenance columns; `now` stands
for `datetime.utcnow()`. -/
def add_metadata (df : Table) (file_name data_source : String) (now : ℤ) : Table :=
  { cols := df.cols ++ ["file_name", "data_source", "processing_timestamp", "data_version"],
    rows := df.rows.map (fun r =>
      (((r.set "file_name" (Val.str file_name)).set
        "data_source" (Val.str data_source)).set
        "processing_timestamp" (Val.time now)).set
        "data_version" (Val.str "1.0")) }

/-- `DataTransformer.transform_data`: the six-step pipeline. -/
def transform_data (df : Table) (file_name data_source : String) (now : ℤ) :
    Except String Table := do
  let s1 := standardize_column_names df
  let s2 ← add_derived_columns s1
  let s3 ← normalize_units s2
  let s4 ← handle_outliers s3
  let s5 ← interpolate_missing_values s4
  pure (add_metadata s5 file_name data_source now)

/-! ### Analyzer — `src/analyzer.py`, class `DataAnalyzer` -/

/-- `DataAnalyzer.metric_columns`: the nine recognized metrics. -/
def metric_columns : List String :=
  ["temperature_celsius", "humidity_percent", "air_quality_index",
   "noise_level_db", "lighting_lux", "crowd_density", "stress_level",
   "sleep_hours", "mood_score"]

/-- The metric columns present in a table, in declaration order. -/
def availableMetrics (df : Table) : List String :=
  metric_columns.filter (fun c => decide (c ∈ df.cols))

/-- The non-null numeric values of a column over a row list
(`group_data[metric].dropna()`; metric columns are numeric past the
transformer). -/
def colNumsOfRows (rows : List Row) (c : String) : List ℚ :=
  (rows.map (fun r => r.get c)).filterMap numCell

/-- The per-metric statistics record of `calculate_basic_statistics`
(`minV`/`maxV` stand for the `min`/`max` dictionary keys). -/
structure MetricStats where
  count : ℕ
  minV : ℚ
  maxV : ℚ
  mean : ℚ
  median : ℚ
  std : ℚ
  variance : ℚ
  percentile_25 : ℚ
  percentile_75 : ℚ
  skewness : ℚ
  kurtosis : ℚ
deriving DecidableEq, Repr

/-- `DataAnalyzer.empty_stats`: the all-zero record reported for a metric
with no data in a group. -/
def empty_stats : MetricStats :=
  { count := 0, minV := 0, maxV := 0, mean := 0, median := 0, std := 0,
    variance := 0, percentile_25 := 0, percentile_75 := 0, skewness := 0,
    kurtosis := 0 }

/-- Statistics of a non-empty sample, following the pandas conventions the
code calls: sample (ddof = 1) variance, `std = √variance` (through `qSqrt`),
linear-interpolated percentiles; the NaN that pandas produces for the
skewness/kurtosis of a too-small or constant sample is represented as 0 (no
theorem depends on these fields). -/
def basicStatsOf (xs : List ℚ) : MetricStats :=
  let n := xs.length
  let mean := xs.sum / (n : ℚ)
  let m2 := (xs.map (fun x => (x - mean) ^ 2)).sum / (n : ℚ)
  let m3 := (xs.map (fun x => (x - mean) ^ 3)).sum / (n : ℚ)
  let m4 := (xs.map (fun x => (x - mean) ^ 4)).sum / (n : ℚ)
  let varS := if n > 1 then (xs.map (fun x => (x - mean) ^ 2)).sum / ((n : ℚ) - 1) else 0
  { count := n,
    minV := (xs.minimum).getD 0,
    maxV := (xs.maximum).getD 0,
    mean := mean,
    median := (quantileQ xs (1/2)).getD 0,
    std := if n > 1 then qSqrt varS else 0,
    variance := varS,
    percentile_25 := (quantileQ xs (1/4)).getD 0,
    percentile_75 := (quantileQ xs (3/4)).getD 0,
    skewness := if n < 3 || m2 = 0 then 0
      else qSqrt ((n : ℚ) * ((n : ℚ) - 1)) / ((n : ℚ) - 2) * (m3 / (m2 * qSqrt m2)),
    kurtosis := if n < 4 || m2 = 0 then 0
      else (((n : ℚ) ^ 2 - 1) * (m4 / m2 ^ 2) - 3 * ((n : ℚ) - 1) ^ 2)
        / (((n : ℚ) - 2) * ((n : ℚ) - 3)) }

/-- The groupby key of a row (`'_'.join(str(g) …)`); a row with a null in a
grouping column is dropped by pandas `groupby`. -/
def groupKeyOfRow (group_by : List String) (r : Row) : Option String :=
  if group_by.any (fun c => isNullV (r.get c)) then none
  else some (String.intercalate "_" (group_by.map (fun c => valToPyStr (r.get c))))

/-- The sorted distinct group keys of a table (pandas `groupby` sorts keys). -/
def groupKeysOf (df : Table) (group_by : List String) : List String :=
  ((df.rows.filterMap (groupKeyOfRow group_by)).mergeSort
    (fun a b => decide (a ≤ b))).dedup

/-- `DataAnalyzer.calculate_basic_statistics`. -/
def calculate_basic_statistics (df : Table) (group_by : List String) :
    List (String × List (String × MetricStats)) :=
  if df.rows.isEmpty then []
  else
    let available := availableMetrics df
    if available.isEmpty then []
    else
      let groups : List (String × List Row) :=
        if !group_by.isEmpty && group_by.all (fun c => decide (c ∈ df.cols)) then
          (groupKeysOf df group_by).map (fun k =>
            (k, df.rows.filter (fun r => groupKeyOfRow group_by r = some k)))
        else [("all_data", df.rows)]
      groups.map (fun g =>
        (g.1, available.map (fun m =>
          let xs := colNumsOfRows g.2 m
          (m, if xs.length > 0 then basicStatsOf xs else empty_stats))))

/-- The pairwise-complete samples of two columns (pandas `DataFrame.corr`
drops a row for a pair when either entry is null). -/
def pairedSamples (df : Table) (c1 c2 : String) : List (ℚ × ℚ) :=
  df.rows.filterMap (fun r =>
    match numCell (r.get c1), numCell (r.get c2) with
    | some x, some y => some (x, y)
    | _, _ => none)

/-- Centered second moments and cross moment of the paired samples. -/
def corrMoments (df : Table) (c1 c2 : String) : ℕ × ℚ × ℚ × ℚ :=
  let ps := pairedSamples df c1 c2
  let n := ps.length
  let mx := (ps.map (fun p => p.1)).sum / (n : ℚ)
  let my := (ps.map (fun p => p.2)).sum / (n : ℚ)
  (n, (ps.map (fun p => (p.1 - mx) * (p.2 - my))).sum,
      (ps.map (fun p => (p.1 - mx) ^ 2)).sum,
      (ps.map (fun p => (p.2 - my) ^ 2)).sum)

/-- Whether the Pearson correlation of the pair is defined (pandas yields NaN
when fewer than two paired samples remain or either column is constant on the
paired sample, and `pd.notna` then rejects the entry). -/
def corrDefined (df : Table) (c1 c2 : String) : Bool :=
  let m := corrMoments df c1 c2
  decide (2 ≤ m.1) && decide (m.2.2.1 ≠ 0) && decide (m.2.2.2 ≠ 0)

/-- The stored correlation value, represented exactly: Pearson
r = sxy/√(sxx·syy) is encoded as its signed square sxy·|sxy|/(sxx·syy), from
which r is recoverable; no claim depends on this value. -/
def corrValue (df : Table) (c1 c2 : String) : ℚ :=
  let m := corrMoments df c1 c2
  m.2.1 * |m.2.1| / (m.2.2.1 * m.2.2.2)

/-- The upper-triangle pairs (i < j) of a list, in the double-loop order of
the source. -/
def upperPairs : List String → List (String × String)
  | [] => []
  | c :: rest => rest.map (fun d => (c, d)) ++ upperPairs rest

/-- `DataAnalyzer.calculate_correlation_matrix`. -/
def calculate_correlation_matrix (df : Table) : List (String × ℚ) :=
  let available := availableMetrics df
  if available.length < 2 then []
  else
    (upperPairs available).filterMap (fun p =>
      if corrDefined df p.1 p.2 then
        some (p.1 ++ "_vs_" ++ p.2, corrValue df p.1 p.2)
      else none)

/-- The per-metric record of `detect_anomalies`. -/
structure AnomalyStats where
  z_score_anomalies : ℕ
  iqr_anomalies : ℕ
  total_readings : ℕ
  anomaly_percentage_zscore : ℚ
  anomaly_percentage_iqr : ℚ
deriving DecidableEq, Repr

/-- `DataAnalyzer.detect_anomalies`: per metric with more than 10 non-null
samples, the |z| > 3 count (stated square-free: (x−μ)² > 9·s², which is 0
when the sample is constant, matching NaN z-scores) and the classic 1.5·IQR
fence count. -/
def detect_anomalies (df : Table) : List (String × AnomalyStats) :=
  metric_columns.filterMap (fun m =>
    if decide (m ∈ df.cols) then
      let xs := colNumsOfRows df.rows m
      let n := xs.length
      if n > 10 then
        let mean := xs.sum / (n : ℚ)
        let varS := (xs.map (fun x => (x - mean) ^ 2)).sum / ((n : ℚ) - 1)
        let zc := if varS = 0 then 0
          else xs.countP (fun x => decide ((x - mean) ^ 2 > 9 * varS))
        let q1 := (quantileQ xs (1/4)).getD 0
        let q3 := (quantileQ xs (3/4)).getD 0
        let iqr := q3 - q1
        let ic := xs.countP (fun x =>
          decide (x < q1 - 3/2 * iqr) || decide (x > q3 + 3/2 * iqr))
        some (m, { z_score_anomalies := zc, iqr_anomalies := ic,
                   total_readings := n,
                   anomaly_percentage_zscore := (zc : ℚ) / (n : ℚ) * 100,
                   anomaly_percentage_iqr := (ic : ℚ) / (n : ℚ) * 100 })
      else none
    else none)

/-- One `agg(['mean', 'std', 'count']).round(2)` bucket: count of non-null
metric values, their rounded mean (NaN when none), their rounded sample
standard deviation (NaN below two samples). -/
structure BucketStats where
  mean : Option ℚ
  std : Option ℚ
  count : ℕ
deriving DecidableEq, Repr

/-- Bucket statistics of the non-null metric values falling in one bucket. -/
def bucketStatsOf (xs : List ℚ) : BucketStats :=
  let n := xs.length
  let m := xs.sum / (n : ℚ)
  { mean := (listMean xs).map qRound2,
    std := if n ≥ 2 then
        some (qRound2 (qSqrt ((xs.map (fun x => (x - m) ^ 2)).sum / ((n : ℚ) - 1))))
      else none,
    count := n }

/-- `Series.idxmax` over (key, value) pairs in frame order: NaN entries are
skipped, an all-NaN or empty frame raises, ties keep the first key. -/
def idxmaxQ {α : Type} (l : List (α × Option ℚ)) : Except String α :=
  match l.filterMap (fun p => p.2.map (fun v => (p.1, v))) with
  | [] => Except.error "attempt to get argmax of an empty sequence"
  | h :: rest =>
      Except.ok (rest.foldl (fun best p => if p.2 > best.2 then p else best) h).1

/-- `Series.idxmin`, symmetrically. -/
def idxminQ {α : Type} (l : List (α × Option ℚ)) : Except String α :=
  match l.filterMap (fun p => p.2.map (fun v => (p.1, v))) with
  | [] => Except.error "attempt to get argmin of an empty sequence"
  | h :: rest =>
      Except.ok (rest.foldl (fun best p => if p.2 < best.2 then p else best) h).1

/-- The per-metric record of `analyze_temporal_patterns`. -/
structure TemporalStats where
  hourly_patterns : List (ℤ × BucketStats)
  daily_patterns : List (String × BucketStats)
  peak_hour : ℤ
  lowest_hour : ℤ
  most_variable_hour : ℤ
deriving DecidableEq, Repr

/-- The temporal analysis of one metric over rows tagged with their
hour-of-day and weekday name. -/
def temporalForMetric (rowsH : List (Row × Option ℤ))
    (rowsD : List (Row × Option String)) (hourKeys : List ℤ)
    (dayKeys : List String) (m : String) : Except String TemporalStats := do
  let bucketH := hourKeys.map (fun k =>
    (k, bucketStatsOf (colNumsOfRows ((rowsH.filter (fun p => p.2 = some k)).map
      (fun p => p.1)) m)))
  let bucketD := dayKeys.map (fun k =>
    (k, bucketStatsOf (colNumsOfRows ((rowsD.filter (fun p => p.2 = some k)).map
      (fun p => p.1)) m)))
  let peak ← idxmaxQ (bucketH.map (fun p => (p.1, p.2.mean)))
  let low ← idxminQ (bucketH.map (fun p => (p.1, p.2.mean)))
  let mv ← idxmaxQ (bucketH.map (fun p => (p.1, p.2.std)))
  pure { hourly_patterns := bucketH, daily_patterns := bucketD,
         peak_hour := peak, lowest_hour := low, most_variable_hour := mv }

/-- The per-metric loop of `analyze_temporal_patterns` (a metric with no
non-null data is skipped without an entry). -/
def temporal_go (rowsH : List (Row × Option ℤ)) (rowsD : List (Row × Option String))
    (hourKeys : List ℤ) (dayKeys : List String) (tblCols : List String) :
    List String → Except String (List (String × TemporalStats))
  | [] => Except.ok []
  | m :: rest => do
      if decide (m ∈ tblCols) &&
          (colNumsOfRows (rowsH.map (fun p => p.1)) m).length > 0 then
        let t ← temporalForMetric rowsH rowsD hourKeys dayKeys m
        let r ← temporal_go rowsH rowsD hourKeys dayKeys tblCols rest
        pure ((m, t) :: r)
      else temporal_go rowsH rowsD hourKeys dayKeys tblCols rest

/-- `DataAnalyzer.analyze_temporal_patterns`: requires a timestamp column (else
an empty result), converts it strictly (raising on an unparseable value),
buckets rows by hour and weekday, and per metric reports the bucket table
plus peak/lowest/most-variable hours via `idxmax`/`idxmin`. -/
def analyze_temporal_patterns (df : Table) :
    Except String (List (String × TemporalStats)) := do
  if decide ("timestamp" ∈ df.cols) then
    let hs ← df.rows.mapM (fun r => toDatetimeStrict (r.get "timestamp"))
    let hourTags := hs.map (fun o => o.map hourOfInstant)
    let dayTags := hs.map (fun o => o.map (fun t => dayNameOf (dayOfWeekOfInstant t)))
    let hourKeys := ((hourTags.filterMap id).mergeSort (fun a b => decide (a ≤ b))).dedup
    let dayKeys := ((dayTags.filterMap id).mergeSort (fun a b => decide (a ≤ b))).dedup
    temporal_go (df.rows.zip hourTags) (df.rows.zip dayTags) hourKeys dayKeys
      df.cols metric_columns
  else pure []

/-- The per-column record of `calculate_data_quality_metrics`. -/
structure ColumnQuality where
  completeness : ℚ
  missing_count : ℕ
  data_type : String
deriving DecidableEq, Repr

/-- The result record of `calculate_data_quality_metrics` (`none` stands for
the empty dictionary returned for a rowless table). -/
structure QualityInfo where
  overall_completeness : ℚ
  total_rows : ℕ
  total_missing_values : ℕ
  column_quality : List (String × ColumnQuality)
deriving DecidableEq, Repr

/-- The observed storage type of a column (numeric-or-null models `float64`,
anything else `object`; only the shape matters to the claims). -/
def dtypeOf (cells : List Val) : String :=
  if cells.all (fun v => !(isStrOrTime v)) then "float64" else "object"

/-- `DataAnalyzer.calculate_data_quality_metrics`: overall and per-metric
completeness.  A table with rows but no columns divides by zero — that raise
is kept, since `analyze_data` later absorbs it. -/
def calculate_data_quality_metrics (df : Table) : Except String (Option QualityInfo) :=
  if df.rows.length = 0 then Except.ok none
  else if df.cols.length = 0 then Except.error "division by zero"
  else
    let totalRows := df.rows.length
    let totalCells := totalRows * df.cols.length
    let missing := (df.cols.map (fun c => (df.col c).countP isNullV)).sum
    let colQ := df.cols.filterMap (fun c =>
      if decide (c ∈ metric_columns) then
        let mc := (df.col c).countP isNullV
        some (c, { completeness := qRound2 (((totalRows : ℚ) - (mc : ℚ)) / (totalRows : ℚ) * 100),
                   missing_count := mc,
                   data_type := dtypeOf (df.col c) : ColumnQuality })
      else none)
    Except.ok (some
      { overall_completeness := qRound2 (((totalCells : ℚ) - (missing : ℚ)) / (totalCells : ℚ) * 100),
        total_rows := totalRows,
        total_missing_values := missing,
        column_quality := colQ })

/-- One aggregated record handed to the persistence collaborator. -/
structure AggRecord where
  location_id : String
  metric_name : String
  min_value : ℚ
  max_value : ℚ
  avg_value : ℚ
  std_value : ℚ
  count : ℕ
  file_name : String
  data_source : String
  analysis_timestamp : ℤ
deriving DecidableEq, Repr

/-- `DataAnalyzer.generate_aggregated_metrics`: the per-location statistics
flattened to one record per (location, metric), keeping only metrics with
data (`count > 0`). -/
def generate_aggregated_metrics (df : Table) (file_name data_source : String)
    (now : ℤ) : List AggRecord :=
  (calculate_basic_statistics df ["location_id"]).flatMap (fun g =>
    g.2.filterMap (fun p =>
      if p.2.count > 0 then
        some { location_id := g.1, metric_name := p.1, min_value := p.2.minV,
               max_value := p.2.maxV, avg_value := p.2.mean,
               std_value := p.2.std, count := p.2.count,
               file_name := file_name, data_source := data_source,
               analysis_timestamp := now }
      else none))

/-- The analysis report assembled by `analyze_data`. -/
structure AnalysisReport where
  file_name : String
  data_source : String
  analysis_timestamp : ℤ
  basic_statistics : List (String × List (String × MetricStats))
  correlations : List (String × ℚ)
  anomalies : List (String × AnomalyStats)
  temporal_patterns : List (String × TemporalStats)
  data_quality : Option QualityInfo
  aggregated_metrics : List AggRecord
  error : Option String
deriving DecidableEq, Repr

/-- `DataAnalyzer.analyze_data`: the report starts from empty defaults and the
six computations run in order inside one `try`; on the first raise the error
text is recorded on whatever had been assigned so far and the report is
returned — later computations do not run. -/
def analyze_data (df : Table) (file_name data_source : String) (now : ℤ) :
    AnalysisReport :=
  let base : AnalysisReport :=
    { file_name := file_name, data_source := data_source,
      analysis_timestamp := now, basic_statistics := [], correlations := [],
      anomalies := [], temporal_patterns := [], data_quality := none,
      aggregated_metrics := [], error := none }
  let r1 := { base with basic_statistics := calculate_basic_statistics df ["location_id"] }
  let r2 := { r1 with correlations := calculate_correlation_matrix df }
  let r3 := { r2 with anomalies := detect_anomalies df }
  match analyze_temporal_patterns df with
  | Except.error e => { r3 with error := some e }
  | Except.ok tp =>
      let r4 := { r3 with temporal_patterns := tp }
      match calculate_data_quality_metrics df with
      | Except.error e => { r4 with error := some e }
      | Except.ok q =>
          let r5 := { r4 with data_quality := q }
          { r5 with aggregated_metrics :=
              generate_aggregated_metrics df file_name data_source now }

/-! ### Spec-side definition and concrete example tables used by the claims -/

/-- Written from the spec wording for the mental-health risk (claim C7), for
comparison with `mental_health_risk_row`: each sub-score clamped below at 0,
in particular `stress_risk = clamp(stress/100, 0, 1)`. -/
def spec_mental_health_risk (stress sleep mood : ℚ) : ℚ :=
  (max 0 (min (stress / 100) 1) + max 0 ((8 - sleep) / 8) + max 0 ((3 - mood) / 3)) / 3

/-- Whether every metric column of the table is numeric-or-null, the dtype
the analyzer receives from the transformer (pandas raises on object-dtype
metric columns, which the embedding does not model cell by cell). -/
def metricColsCleanB (df : Table) : Bool :=
  metric_columns.all (fun m => (df.col m).all (fun v => !(isStrOrTime v)))

/-- A completely empty row over the required columns. -/
def nullRow (i : ℕ) : Row := ⟨i, required_columns.map (fun c => (c, Val.null))⟩

/-- A well-formed data row over the required columns, with a chosen
stress-level cell. -/
def dataRow (i : ℕ) (stress : Val) : Row :=
  ⟨i, [("location_id", Val.str "A"), ("timestamp", Val.time (100 + i)),
      ("stress_level", stress), ("sleep_hours", Val.num 7), ("mood_score", Val.num 3),
      ("mental_health_status", Val.num 1), ("noise_level_db", Val.num 40),
      ("lighting_lux", Val.num 100), ("crowd_density", Val.num 10),
      ("temperature_celsius", Val.num 20)]⟩

/-- Quarantine-boundary example: two completely empty rows, two valid rows,
two rows with a missing required field.  After empty-row removal 2 of 4 rows
are invalid (exactly 50%), yet the code counts 4 invalid out of the original
6 rows and quarantines. -/
def tblC1 : Table :=
  { cols := required_columns,
    rows := [nullRow 0, nullRow 1, dataRow 2 (Val.num 50), dataRow 3 (Val.num 50),
             dataRow 4 Val.null, dataRow 5 Val.null] }

/-- Ten rows, none empty, exactly five with a missing required field: the
50%-exactly acceptance example. -/
def tblC1w : Table :=
  { cols := required_columns,
    rows := [dataRow 0 (Val.num 50), dataRow 1 (Val.num 50), dataRow 2 (Val.num 50),
             dataRow 3 (Val.num 50), dataRow 4 (Val.num 50), dataRow 5 Val.null,
             dataRow 6 Val.null, dataRow 7 Val.null, dataRow 8 Val.null,
             dataRow 9 Val.null] }

/-- A row of `tblC5`, carrying an extra declared-numeric `temperature` column
and a chosen timestamp cell. -/
def rowC5 (i : ℕ) (ts temp : Val) : Row :=
  ⟨i, [("location_id", Val.str "A"), ("timestamp", ts),
      ("stress_level", Val.num 50), ("sleep_hours", Val.num 7), ("mood_score", Val.num 3),
      ("mental_health_status", Val.num 1), ("noise_level_db", Val.num 40),
      ("lighting_lux", Val.num 100), ("crowd_density", Val.num 10),
      ("temperature_celsius", Val.num 20), ("temperature", temp)]⟩

/-- Type-coercion example: one clean row, one row whose `temperature` value
fails numeric coercion (the row must still pass), one row whose timestamp
fails to parse (only that row drops out). -/
def tblC5 : Table :=
  { cols := required_columns ++ ["temperature"],
    rows := [rowC5 0 (Val.time 100) (Val.num 21),
             rowC5 1 (Val.time 101) (Val.str "x"),
             rowC5 2 (Val.str "zzz") (Val.num 22)] }

/-- Two rows whose timestamps are out of order: the transformer returns them
sorted. -/
def tblC2 : Table :=
  { cols := ["timestamp"],
    rows := [⟨0, [("timestamp", Val.time 5)]⟩, ⟨1, [("timestamp", Val.time 3)]⟩] }

/-- The transformed result of `tblC2`: rows come back sorted by timestamp,
so row index 1 now precedes row index 0. -/
def outC2w : Table :=
  { cols := ["timestamp", "hour", "day_of_week", "month", "file_name",
             "data_source", "processing_timestamp", "data_version"],
    rows := [⟨1, [("timestamp", Val.time 3), ("hour", Val.num 3),
                  ("day_of_week", Val.num 3), ("month", Val.num 1),
                  ("file_name", Val.str "f"), ("data_source", Val.str "s"),
                  ("processing_timestamp", Val.time 0),
                  ("data_version", Val.str "1.0")]⟩,
             ⟨0, [("timestamp", Val.time 5), ("hour", Val.num 5),
                  ("day_of_week", Val.num 3), ("month", Val.num 1),
                  ("file_name", Val.str "f"), ("data_source", Val.str "s"),
                  ("processing_timestamp", Val.time 0),
                  ("data_version", Val.str "1.0")]⟩] }

/-- A table whose timestamp column holds an unparseable string: the temporal
analysis raises inside `analyze_data`. -/
def tblC3 : Table :=
  { cols := ["location_id", "timestamp", "temperature_celsius"],
    rows := [⟨0, [("location_id", Val.str "A"), ("timestamp", Val.str "bad"),
                  ("temperature_celsius", Val.num 20)]⟩] }

/-- Outlier-capping example: a single metric column with values 1,2,3,4,100;
Q1 = 2, Q3 = 4, bounds [−4, 10], so 100 caps to 10. -/
def tblC6 : Table :=
  { cols := ["stress_level"],
    rows := [⟨0, [("stress_level", Val.num 1)]⟩, ⟨1, [("stress_level", Val.num 2)]⟩,
             ⟨2, [("stress_level", Val.num 3)]⟩, ⟨3, [("stress_level", Val.num 4)]⟩,
             ⟨4, [("stress_level", Val.num 100)]⟩] }

/-- The capped result of `handle_outliers tblC6`. -/
def outC6 : Table :=
  { cols := ["stress_level"],
    rows := [⟨0, [("stress_level", Val.num 1)]⟩, ⟨1, [("stress_level", Val.num 2)]⟩,
             ⟨2, [("stress_level", Val.num 3)]⟩, ⟨3, [("stress_level", Val.num 4)]⟩,
             ⟨4, [("stress_level", Val.num 10)]⟩] }

/-- Correlation example: `stress_level` is constant while `mood_score` varies,
so the pair's Pearson correlation is undefined and its key must be absent. -/
def tblC8 : Table :=
  { cols := ["stress_level", "mood_score"],
    rows := [⟨0, [("stress_level", Val.num 5), ("mood_score", Val.num 1)]⟩,
             ⟨1, [("stress_level", Val.num 5), ("mood_score", Val.num 2)]⟩,
             ⟨2, [("stress_level", Val.num 5), ("mood_score", Val.num 3)]⟩] }

/-- Aggregation example: location A has one stress sample, location B only a
null, so only (A, stress_level) may produce a record. -/
def tblC10 : Table :=
  { cols := ["location_id", "stress_level"],
    rows := [⟨0, [("location_id", Val.str "A"), ("stress_level", Val.num 4)]⟩,
             ⟨1, [("location_id", Val.str "B"), ("stress_level", Val.null)]⟩] }

/-- A run of three missing values between known values 10 and 20 at evenly
spaced timestamps. -/
def tblC9run3 : Table :=
  { cols := ["timestamp", "temperature_celsius"],
    rows := (List.range 5).map (fun i =>
      ⟨i, [("timestamp", Val.time i),
           ("temperature_celsius",
             if i = 0 then Val.num 10 else if i = 4 then Val.num 20 else Val.null)]⟩) }

/-- A run of six missing values between known values 10 and 80. -/
def tblC9run6 : Table :=
  { cols := ["timestamp", "temperature_celsius"],
    rows := (List.range 8).map (fun i =>
      ⟨i, [("timestamp", Val.time i),
           ("temperature_celsius",
             if i = 0 then Val.num 10 else if i = 7 then Val.num 80 else Val.null)]⟩) }

/-- A run of eleven missing values between known values 10 and 130: only the
five nearest each edge are linearly filled, the middle one is forward-filled. -/
def tblC9run11 : Table :=
  { cols := ["timestamp", "temperature_celsius"],
    rows := (List.range 13).map (fun i =>
      ⟨i, [("timestamp", Val.time i),
           ("temperature_celsius",
             if i = 0 then Val.num 10 else if i = 12 then Val.num 130 else Val.null)]⟩) }

/-- The neutral scoring point `stress = 0, sleep = 8, mood = 3`. -/
def rowC7neutral : Row :=
  ⟨0, [("stress_level", Val.num 0), ("sleep_hours", Val.num 8), ("mood_score", Val.num 3)]⟩

/-- A row with a negative stress level, where the code's unclamped
`min(stress/100, 1)` goes below zero. -/
def rowC7bad : Row :=
  ⟨0, [("stress_level", Val.num (-100)), ("sleep_hours", Val.num 8), ("mood_score", Val.num 3)]⟩

/-- A table missing the required column `mood_score` (claim C4's witness). -/
def tblC4 : Table :=
  { cols := ["location_id", "timestamp", "stress_level", "sleep_hours",
             "mental_health_status", "noise_level_db", "lighting_lux",
             "crowd_density", "temperature_celsius"],
    rows := [⟨0, [("location_id", Val.str "A"), ("timestamp", Val.time 0),
                  ("stress_level", Val.num 50), ("sleep_hours", Val.num 7),
                  ("mental_health_status", Val.num 1), ("noise_level_db", Val.num 40),
                  ("lighting_lux", Val.num 100), ("crowd_density", Val.num 10),
                  ("temperature_celsius", Val.num 20)]⟩] }

/-- The filled result of `interpolate_missing_values tblC9run3`. -/
def outC9run3 : Table :=
  { cols := ["timestamp", "temperature_celsius"],
    rows := [⟨0, [("timestamp", Val.time 0), ("temperature_celsius", Val.num 10)]⟩,
             ⟨1, [("timestamp", Val.time 1), ("temperature_celsius", Val.num (25/2))]⟩,
             ⟨2, [("timestamp", Val.time 2), ("temperature_celsius", Val.num 15)]⟩,
             ⟨3, [("timestamp", Val.time 3), ("temperature_celsius", Val.num (35/2))]⟩,
             ⟨4, [("timestamp", Val.time 4), ("temperature_celsius", Val.num 20)]⟩] }

/-- The valid table produced by the row-level validation chain on the cleaned
input (the table `validate_data` returns when it accepts). -/
def pipelineValidTable (pt : Val → Option ℤ) (pn : Val → Option ℚ)
    (df : Table) : Table :=
  (validate_sensor_ranges (validate_required_fields
    (validate_data_types pt pn (dropAllNullRows df)).1).valid).valid

/-! ### Claim C7 — mental-health risk formula -/

/-- C7 counterexample: at `stress_level = −100, sleep_hours = 8,
mood_score = 3` the code computes `min(−1, 1) = −1` (no lower clamp) and
returns −1/3, which differs from the spec's clamped formula (0) and lies
outside [0, 1]. -/
theorem C7_counterexample :
    mental_health_risk_row rowC7bad = Except.ok (some (-(1/3))) ∧
    spec_mental_health_risk (-100) 8 3 = 0 ∧
    ¬ (0 ≤ (-(1/3) : ℚ)) :=
  ⟨of_decide_eq_true (by with_unfolding_all rfl),
   of_decide_eq_true (by with_unfolding_all rfl),
   of_decide_eq_true (by with_unfolding_all rfl)⟩

/-- C7 (amended): the risk is the mean of `min(stress/100, 1)` (unclamped
below), `max(0, (8−sleep)/8)` and `max(0, (3−mood)/3)`; whenever the three
sources carry values inside the validated sensor ranges the result lies in
[0, 1], and at the neutral point the formula gives exactly 0. -/
theorem C7_amended (r : Row) (s sl m : ℚ)
    (hs : getFactor r "stress_level" 0 = Except.ok (some s))
    (hsl : getFactor r "sleep_hours" 8 = Except.ok (some sl))
    (hm : getFactor r "mood_score" 3 = Except.ok (some m))
    (hs0 : 0 ≤ s) (_hs1 : s ≤ 100) (hsl0 : 0 ≤ sl) (_hsl1 : sl ≤ 24)
    (hm0 : 0 ≤ m) (_hm1 : m ≤ 5) :
    mental_health_risk_row r =
      Except.ok (some ((min (s / 100) 1 + max 0 ((8 - sl) / 8) + max 0 ((3 - m) / 3)) / 3)) ∧
    0 ≤ (min (s / 100) 1 + max 0 ((8 - sl) / 8) + max 0 ((3 - m) / 3)) / 3 ∧
    (min (s / 100) 1 + max 0 ((8 - sl) / 8) + max 0 ((3 - m) / 3)) / 3 ≤ 1 := by
  have h1 : (0 : ℚ) ≤ min (s / 100) 1 := le_min (by positivity) (by norm_num)
  have h2 : min (s / 100) 1 ≤ 1 := min_le_right _ _
  have h3 : (0 : ℚ) ≤ max 0 ((8 - sl) / 8) := le_max_left _ _
  have h4 : max 0 ((8 - sl) / 8) ≤ 1 := by
    refine max_le (by norm_num) ?_
    rw [div_le_one (by norm_num : (0:ℚ) < 8)]
    linarith
  have h5 : (0 : ℚ) ≤ max 0 ((3 - m) / 3) := le_max_left _ _
  have h6 : max 0 ((3 - m) / 3) ≤ 1 := by
    refine max_le (by norm_num) ?_
    rw [div_le_one (by norm_num : (0:ℚ) < 3)]
    linarith
  refine ⟨?_, by linarith, by linarith⟩
  simp [mental_health_risk_row, hs, hsl, hm, Bind.bind, Except.bind, Pure.pure,
    Except.pure]

/-- C7 witness: the amended theorem applied at the neutral row, where the
formula evaluates to exactly 0. -/
theorem C7_witness :
    mental_health_risk_row rowC7neutral = Except.ok (some 0) := by
  have h := (C7_amended rowC7neutral 0 8 3 rfl rfl rfl
    (by norm_num) (by norm_num) (by norm_num) (by norm_num) (by norm_num)
    (by norm_num)).1
  simpa using h

/-! ### Claim C3 — analyzer orchestration under sub-analysis failure -/

/-- C3 counterexample: on a table whose timestamp cannot be parsed the
temporal sub-analysis raises; the error is recorded and the report returned,
but the data-quality and aggregated-metrics sub-analyses are skipped (their
fields keep the empty defaults) even though both would have produced
non-empty results — they do not "still run and contribute". -/
theorem C3_counterexample :
    (analyze_data tblC3 "f" "s" 0).error = some "could not parse timestamp bad" ∧
    (analyze_data tblC3 "f" "s" 0).data_quality = none ∧
    (analyze_data tblC3 "f" "s" 0).aggregated_metrics = [] ∧
    calculate_data_quality_metrics tblC3 ≠ Except.ok none ∧
    generate_aggregated_metrics tblC3 "f" "s" 0 ≠ [] :=
  ⟨of_decide_eq_true (by with_unfolding_all rfl),
   of_decide_eq_true (by with_unfolding_all rfl),
   of_decide_eq_true (by with_unfolding_all rfl),
   of_decide_eq_true (by with_unfolding_all rfl),
   of_decide_eq_true (by with_unfolding_all rfl)⟩

/-- C3 (amended): no exception propagates out of `analyze_data` — it always
returns a report; when a sub-analysis raises, the error text is recorded in
the report's error field and the results of the sub-analyses that ran
*before* the failure are kept, while the later sub-analyses are skipped and
keep their empty defaults (the five analyses share a single try block). -/
theorem C3_amended (df : Table) (fn ds : String) (now : ℤ) :
    (∀ e, analyze_temporal_patterns df = Except.error e →
      analyze_data df fn ds now =
        { file_name := fn, data_source := ds, analysis_timestamp := now,
          basic_statistics := calculate_basic_statistics df ["location_id"],
          correlations := calculate_correlation_matrix df,
          anomalies := detect_anomalies df,
          temporal_patterns := [], data_quality := none,
          aggregated_metrics := [], error := some e }) ∧
    (∀ tp e, analyze_temporal_patterns df = Except.ok tp →
      calculate_data_quality_metrics df = Except.error e →
      analyze_data df fn ds now =
        { file_name := fn, data_source := ds, analysis_timestamp := now,
          basic_statistics := calculate_basic_statistics df ["location_id"],
          correlations := calculate_correlation_matrix df,
          anomalies := detect_anomalies df,
          temporal_patterns := tp, data_quality := none,
          aggregated_metrics := [], error := some e }) ∧
    (∀ tp q, analyze_temporal_patterns df = Except.ok tp →
      calculate_data_quality_metrics df = Except.ok q →
      analyze_data df fn ds now =
        { file_name := fn, data_source := ds, analysis_timestamp := now,
          basic_statistics := calculate_basic_statistics df ["location_id"],
          correlations := calculate_correlation_matrix df,
          anomalies := detect_anomalies df,
          temporal_patterns := tp, data_quality := q,
          aggregated_metrics := generate_aggregated_metrics df fn ds now,
          error := none }) := by
  refine ⟨fun e he => ?_, fun tp e htp he => ?_, fun tp q htp hq => ?_⟩
  · simp [analyze_data, he]
  · simp [analyze_data, htp, he]
  · simp [analyze_data, htp, hq]

/-- C3 witness: the amended theorem applied to the bad-timestamp table. -/
theorem C3_witness :
    (analyze_data tblC3 "g" "t" 5).error = some "could not parse timestamp bad" := by
  have h := (C3_amended tblC3 "g" "t" 5).1 "could not parse timestamp bad"
    (of_decide_eq_true (by with_unfolding_all rfl))
  rw [h]

/-! ### Claim C4 — required column entirely absent -/

theorem reqMaskStep_length (df : Table) (acc : List Bool × List String)
    (c : String) (h : acc.1.length = df.rows.length) :
    ((reqMaskStep df acc c).1).length = df.rows.length := by
  unfold reqMaskStep
  split
  · simp [h]
  · simp [h]

theorem allTrue_zipWith_or (as bs : List Bool) (h : ∀ b ∈ as, b = true) :
    ∀ x ∈ List.zipWith (fun a b => a || b) as bs, x = true := by
  induction as generalizing bs with
  | nil => simp
  | cons a as ih =>
      cases bs with
      | nil => simp
      | cons b bs =>
          intro x hx
          simp only [List.zipWith_cons_cons, List.mem_cons] at hx
          rcases hx with rfl | hx
          · have ha := h a (by simp)
            simp [ha]
          · exact ih bs (fun y hy => h y (by simp [hy])) x hx

theorem reqMaskStep_allTrue (df : Table) (acc : List Bool × List String)
    (c : String) (h : ∀ b ∈ acc.1, b = true) :
    ∀ b ∈ (reqMaskStep df acc c).1, b = true := by
  unfold reqMaskStep
  split
  · exact allTrue_zipWith_or acc.1 _ h
  · intro b hb
    simp only [List.mem_map] at hb
    obtain ⟨_, _, rfl⟩ := hb
    rfl

theorem reqMaskStep_errors_mono (df : Table) (acc : List Bool × List String)
    (c : String) (e : String) (h : e ∈ acc.2) : e ∈ (reqMaskStep df acc c).2 := by
  unfold reqMaskStep
  split <;> simp [h]

theorem foldl_reqMask_preserve (df : Table) (l : List String)
    (acc : List Bool × List String) (e : String)
    (ht : ∀ b ∈ acc.1, b = true) (he : e ∈ acc.2) :
    (∀ b ∈ (l.foldl (reqMaskStep df) acc).1, b = true) ∧
      e ∈ (l.foldl (reqMaskStep df) acc).2 := by
  induction l generalizing acc with
  | nil => exact ⟨ht, he⟩
  | cons c rest ih =>
      exact ih _ (reqMaskStep_allTrue df acc c ht)
        (reqMaskStep_errors_mono df acc c e he)

theorem foldl_reqMask_length (df : Table) (l : List String)
    (acc : List Bool × List String) (h : acc.1.length = df.rows.length) :
    ((l.foldl (reqMaskStep df) acc).1).length = df.rows.length := by
  induction l generalizing acc with
  | nil => exact h
  | cons c rest ih => exact ih _ (reqMaskStep_length df acc c h)

theorem reqMaskStep_absent (df : Table) (acc : List Bool × List String)
    (c : String) (habs : c ∉ df.cols) :
    (∀ b ∈ (reqMaskStep df acc c).1, b = true) ∧
    ("Required column \x27" ++ c ++ "\x27 is missing from dataset") ∈
      (reqMaskStep df acc c).2 := by
  unfold reqMaskStep
  rw [if_neg (by simpa using habs)]
  refine ⟨?_, by simp⟩
  intro b hb
  simp only [List.mem_map] at hb
  obtain ⟨_, _, rfl⟩ := hb
  rfl

theorem filterByMask_allTrue_false (rows : List Row) (mask : List Bool)
    (h : ∀ b ∈ mask, b = true) : filterByMask rows mask false = [] := by
  unfold filterByMask
  have : (rows.zip mask).filter (fun p => p.2 == false) = [] := by
    rw [List.filter_eq_nil_iff]
    intro p hp
    have := h p.2 (List.of_mem_zip hp).2
    simp [this]
  rw [this]
  rfl

theorem filterByMask_allTrue_true_len (rows : List Row) (mask : List Bool)
    (h : ∀ b ∈ mask, b = true) (hlen : mask.length = rows.length) :
    (filterByMask rows mask true).length = rows.length := by
  unfold filterByMask
  have : (rows.zip mask).filter (fun p => p.2 == true) = rows.zip mask := by
    rw [List.filter_eq_self]
    intro p hp
    have := h p.2 (List.of_mem_zip hp).2
    simp [this]
  rw [this]
  simp [List.length_zip, hlen]

/-- C4: when a required column is entirely absent, `validate_required_fields`
marks every row invalid — the valid table is empty, the invalid table holds
all rows, and the missing-column description is recorded — rather than the
function failing structurally. -/
theorem C4_required_column_absent (df : Table) (c : String)
    (hc : c ∈ required_columns) (habs : c ∉ df.cols) :
    (validate_required_fields df).valid.rows = [] ∧
    (validate_required_fields df).invalid.rows.length = df.rows.length ∧
    ("Required column \x27" ++ c ++ "\x27 is missing from dataset") ∈
      (validate_required_fields df).errors := by
  obtain ⟨l1, l2, hsplit⟩ := List.append_of_mem hc
  have hA : ∀ acc : List Bool × List String,
      acc.1.length = df.rows.length →
      (∀ b ∈ (required_columns.foldl (reqMaskStep df) acc).1, b = true) ∧
      ("Required column \x27" ++ c ++ "\x27 is missing from dataset") ∈
        (required_columns.foldl (reqMaskStep df) acc).2 ∧
      ((required_columns.foldl (reqMaskStep df) acc).1).length = df.rows.length := by
    intro acc hlen
    rw [hsplit, List.foldl_append, List.foldl_cons]
    have hAlen := foldl_reqMask_length df l1 acc hlen
    have habsStep := reqMaskStep_absent df (l1.foldl (reqMaskStep df) acc) c habs
    have hBlen := reqMaskStep_length df (l1.foldl (reqMaskStep df) acc) c hAlen
    have hpres := foldl_reqMask_preserve df l2 _ _ habsStep.1 habsStep.2
    exact ⟨hpres.1, hpres.2, foldl_reqMask_length df l2 _ hBlen⟩
  have h := hA (df.rows.map (fun _ => false), []) (by simp)
  unfold validate_required_fields
  have hall : ((required_columns.foldl (reqMaskStep df)
      (df.rows.map (fun _ => false), [])).1.all (fun b => b)) = true :=
    List.all_eq_true.mpr (fun b hb => h.1 b hb)
  simp only [hall, Bool.not_true, Bool.and_false, if_false, Bool.false_eq_true]
  exact ⟨filterByMask_allTrue_false df.rows _ h.1,
         filterByMask_allTrue_true_len df.rows _ h.1 h.2.2, h.2.1⟩

/-- C4 witness: the theorem applied at a table lacking `mood_score`. -/
theorem C4_witness :
    (validate_required_fields tblC4).valid.rows = [] ∧
    (validate_required_fields tblC4).invalid.rows.length = tblC4.rows.length ∧
    ("Required column \x27mood_score\x27 is missing from dataset") ∈
      (validate_required_fields tblC4).errors := by
  have h := C4_required_column_absent tblC4 "mood_score" (by decide) (by decide)
  simpa using h

/-! ### Claim C5 — type-coercion step -/

theorem Table.cols_mapCol (t : Table) (c : String) (f : Val → Val) :
    (t.mapCol c f).cols = t.cols := rfl

theorem Table.col_mapCol_self (t : Table) (c : String) (f : Val → Val) :
    (t.mapCol c f).col c = (t.col c).map f := by
  unfold Table.mapCol Table.col
  simp only [List.map_map]
  exact List.map_congr_left (fun r _ => Row.get_set_self r c _)

theorem Table.col_mapCol_ne (t : Table) (c c' : String) (f : Val → Val)
    (h : c ≠ c') : (t.mapCol c f).col c' = t.col c' := by
  unfold Table.mapCol Table.col
  simp only [List.map_map]
  exact List.map_congr_left (fun r _ => Row.get_set_ne r c c' _ h)

theorem numericCoerceStep_cols (pn : Val → Option ℚ) (acc : Table × List String)
    (c : String) : ((numericCoerceStep pn acc c).1).cols = acc.1.cols := by
  unfold numericCoerceStep
  split <;> rfl

theorem numericCoerceStep_col_ne (pn : Val → Option ℚ) (acc : Table × List String)
    (c c' : String) (h : c' ≠ c) :
    ((numericCoerceStep pn acc c).1).col c' = acc.1.col c' := by
  unfold numericCoerceStep
  split
  · exact Table.col_mapCol_ne acc.1 c c' _ (Ne.symm h)
  · rfl

theorem numericCoerceStep_warn_mono (pn : Val → Option ℚ)
    (acc : Table × List String) (c : String) (e : String) (h : e ∈ acc.2) :
    e ∈ (numericCoerceStep pn acc c).2 := by
  unfold numericCoerceStep
  split <;> simp [h]

theorem numFold_preserve (pn : Val → Option ℚ) (l : List String)
    (acc : Table × List String) (c : String) (hc : c ∉ l) :
    ((l.foldl (numericCoerceStep pn) acc).1.col c = acc.1.col c) ∧
    ((l.foldl (numericCoerceStep pn) acc).1.cols = acc.1.cols) ∧
    (∀ e ∈ acc.2, e ∈ (l.foldl (numericCoerceStep pn) acc).2) := by
  induction l generalizing acc with
  | nil => exact ⟨rfl, rfl, fun e he => he⟩
  | cons d rest ih =>
      have hcd : c ≠ d := fun h => hc (h ▸ List.mem_cons_self d rest)
      have hcr : c ∉ rest := fun h => hc (List.mem_cons_of_mem d h)
      have h := ih (numericCoerceStep pn acc d) hcr
      refine ⟨?_, ?_, ?_⟩
      · rw [List.foldl_cons, h.1, numericCoerceStep_col_ne pn acc d c hcd]
      · rw [List.foldl_cons, h.2.1, numericCoerceStep_cols]
      · intro e he
        rw [List.foldl_cons]
        exact h.2.2 e (numericCoerceStep_warn_mono pn acc d e he)

theorem numFold_spec (pn : Val → Option ℚ) (l : List String) (hnd : l.Nodup)
    (start : Table × List String) :
    ∀ c ∈ l, c ∈ start.1.cols →
      ((l.foldl (numericCoerceStep pn) start).1.col c =
        (start.1.col c).map (coerceWith Val.num pn)) ∧
      (0 < (start.1.col c).countP (fun v => (pn v).isNone) →
        ("Found " ++ toString ((start.1.col c).countP (fun v => (pn v).isNone)) ++
         " invalid " ++ c ++ " values, converted to NaN") ∈
          (l.foldl (numericCoerceStep pn) start).2) := by
  induction l generalizing start with
  | nil => simp
  | cons d rest ih =>
      intro c hc hcc
      rcases List.mem_cons.mp hc with rfl | hc'
      · have hcr : c ∉ rest := (List.nodup_cons.mp hnd).1
        have hstep : numericCoerceStep pn start c =
            (start.1.mapCol c (coerceWith Val.num pn),
             start.2 ++ (if 0 < (start.1.col c).countP (fun v => (pn v).isNone) then
               ["Found " ++ toString ((start.1.col c).countP (fun v => (pn v).isNone)) ++
                " invalid " ++ c ++ " values, converted to NaN"]
             else [])) := by
          unfold numericCoerceStep
          rw [if_pos (by simpa using hcc)]
        have hrest := numFold_preserve pn rest (numericCoerceStep pn start c) c hcr
        refine ⟨?_, ?_⟩
        · rw [List.foldl_cons, hrest.1, hstep, Table.col_mapCol_self]
        · intro hcnt
          rw [List.foldl_cons]
          refine hrest.2.2 _ ?_
          rw [hstep]
          simp [hcnt]
      · have hnd' := (List.nodup_cons.mp hnd).2
        have hdc : c ≠ d := fun h => (List.nodup_cons.mp hnd).1 (h ▸ hc')
        have hcols : c ∈ (numericCoerceStep pn start d).1.cols := by
          rw [numericCoerceStep_cols]; exact hcc
        have hcol : (numericCoerceStep pn start d).1.col c = start.1.col c :=
          numericCoerceStep_col_ne pn start d c hdc
        have h := ih hnd' (numericCoerceStep pn start d) c hc' hcols
        rw [List.foldl_cons]
        rw [hcol] at h
        exact h

theorem locStep_cols (df : Table) :
    (if decide ("location_id" ∈ df.cols)
      then df.mapCol "location_id" astypeStr else df).cols = df.cols := by
  split <;> rfl

theorem locStep_col_ne (df : Table) (c : String) (h : "location_id" ≠ c) :
    (if decide ("location_id" ∈ df.cols)
      then df.mapCol "location_id" astypeStr else df).col c = df.col c := by
  split
  · exact Table.col_mapCol_ne df "location_id" c _ h
  · rfl

/-- C5: during type coercion, every timestamp cell that fails to parse
becomes null (and parsed cells become timestamps), with the failure count
recorded as a violation description; every declared-numeric cell that fails
coercion becomes null with its count recorded as a warning; and, concretely,
a file with one unparseable `temperature` value and one unparseable
timestamp is still accepted with the numeric-failure row surviving — neither
failure is fatal by itself. -/
theorem C5_type_coercion (pt : Val → Option ℤ) (pn : Val → Option ℚ) (df : Table) :
    (("timestamp" ∈ df.cols →
        (validate_data_types pt pn df).1.col "timestamp" =
          (df.col "timestamp").map (coerceWith Val.time pt)) ∧
     ("timestamp" ∈ df.cols →
        0 < (df.col "timestamp").countP (fun v => (pt v).isNone) →
        ("Found " ++ toString ((df.col "timestamp").countP (fun v => (pt v).isNone)) ++
          " invalid timestamp formats") ∈ (validate_data_types pt pn df).2.1) ∧
     (∀ c ∈ numeric_coercion_columns, c ∈ df.cols →
        (validate_data_types pt pn df).1.col c =
          (df.col c).map (coerceWith Val.num pn)) ∧
     (∀ c ∈ numeric_coercion_columns, c ∈ df.cols →
        0 < (df.col c).countP (fun v => (pn v).isNone) →
        ("Found " ++ toString ((df.col c).countP (fun v => (pn v).isNone)) ++
          " invalid " ++ c ++ " values, converted to NaN") ∈
          (validate_data_types pt pn df).2.2)) ∧
    ((validate_data defaultParseTime defaultParseNum tblC5).accepted = true ∧
     (validate_data defaultParseTime defaultParseNum tblC5).quarantined = false ∧
     ((validate_data defaultParseTime defaultParseNum tblC5).result.rows.map Row.idx)
        = [0, 1]) := by
  have hnodup : numeric_coercion_columns.Nodup := by decide
  have hnots : ∀ c ∈ numeric_coercion_columns, "timestamp" ≠ c := by decide
  have hnoloc : ∀ c ∈ numeric_coercion_columns, "location_id" ≠ c := by decide
  refine ⟨?_, of_decide_eq_true (by with_unfolding_all rfl),
    of_decide_eq_true (by with_unfolding_all rfl),
    of_decide_eq_true (by with_unfolding_all rfl)⟩
  simp only [validate_data_types]
  set df1 := (if decide ("location_id" ∈ df.cols)
    then df.mapCol "location_id" astypeStr else df) with hdf1
  have h1cols : df1.cols = df.cols := by rw [hdf1]; exact locStep_cols df
  have h1ts : df1.col "timestamp" = df.col "timestamp" := by
    rw [hdf1]; exact locStep_col_ne df "timestamp" (by decide)
  have h1c : ∀ c ∈ numeric_coercion_columns, df1.col c = df.col c := by
    intro c hc
    rw [hdf1]; exact locStep_col_ne df c (hnoloc c hc)
  by_cases hts : "timestamp" ∈ df.cols
  · have hdec : decide ("timestamp" ∈ df1.cols) = true := by
      rw [h1cols]; exact decide_eq_true hts
    simp only [hdec, if_true, h1ts]
    set df2 := df1.mapCol "timestamp" (coerceWith Val.time pt) with hdf2
    have h2cols : df2.cols = df.cols := by rw [hdf2, Table.cols_mapCol, h1cols]
    have h2ts : df2.col "timestamp" = (df.col "timestamp").map (coerceWith Val.time pt) := by
      rw [hdf2, Table.col_mapCol_self, h1ts]
    have h2c : ∀ c ∈ numeric_coercion_columns, df2.col c = df.col c := by
      intro c hc
      rw [hdf2, Table.col_mapCol_ne df1 "timestamp" c _ (hnots c hc), h1c c hc]
    refine ⟨fun _ => ?_, fun _ hcnt => by simp [hcnt], fun c hc hcc => ?_, fun c hc hcc hcnt => ?_⟩
    · have h := (numFold_preserve pn numeric_coercion_columns
        (df2, []) "timestamp" (by decide)).1
      rw [h, h2ts]
    · have h := (numFold_spec pn numeric_coercion_columns hnodup (df2, []) c hc
        (by rw [h2cols]; exact hcc)).1
      rw [h2c c hc] at h
      exact h
    · have h := (numFold_spec pn numeric_coercion_columns hnodup (df2, []) c hc
        (by rw [h2cols]; exact hcc)).2
      rw [h2c c hc] at h
      exact h hcnt
  · have hdec : decide ("timestamp" ∈ df1.cols) = false := by
      rw [h1cols]; exact decide_eq_false hts
    simp only [hdec, if_false]
    refine ⟨fun h => absurd h hts, fun h => absurd h hts,
      fun c hc hcc => ?_, fun c hc hcc hcnt => ?_⟩
    · have h := (numFold_spec pn numeric_coercion_columns hnodup (df1, []) c hc
        (by rw [h1cols]; exact hcc)).1
      rw [h1c c hc] at h
      exact h
    · have h := (numFold_spec pn numeric_coercion_columns hnodup (df1, []) c hc
        (by rw [h1cols]; exact hcc)).2
      rw [h1c c hc] at h
      exact h hcnt

/-- C5 witness: the theorem applied to the concrete mixed-failure table. -/
theorem C5_witness :
    (validate_data_types defaultParseTime defaultParseNum tblC5).1.col "temperature" =
      [Val.num 21, Val.null, Val.num 22] ∧
    ("Found 1 invalid temperature values, converted to NaN") ∈
      (validate_data_types defaultParseTime defaultParseNum tblC5).2.2 ∧
    ("Found 1 invalid timestamp formats") ∈
      (validate_data_types defaultParseTime defaultParseNum tblC5).2.1 := by
  have h := (C5_type_coercion defaultParseTime defaultParseNum tblC5).1
  have hcntN : (tblC5.col "temperature").countP
      (fun v => (defaultParseNum v).isNone) = 1 := by decide
  have hcntT : (tblC5.col "timestamp").countP
      (fun v => (defaultParseTime v).isNone) = 1 := by decide
  refine ⟨?_, ?_, ?_⟩
  · have hh := h.2.2.1 "temperature" (by decide) (by decide)
    rw [hh]
    rfl
  · have hh := h.2.2.2 "temperature" (by decide) (by decide)
      (by rw [hcntN]; norm_num)
    rw [hcntN] at hh
    exact hh
  · have hh := h.2.1 (by decide) (by rw [hcntT]; norm_num)
    rw [hcntT] at hh
    exact hh

/-! ### Claim C1 — quarantine decision basis -/

/-- C1 counterexample: in `tblC1` the post-cleanup table has 4 rows of which
exactly 2 are invalid (50%, not more), so the claim mandates acceptance with
the 2 valid rows — but `validate_data` measures the invalid count against the
original 6-row length (a count that includes the removed empty rows) and quarantines,
returning an empty table. -/
theorem C1_counterexample :
    2 * ((dropAllNullRows tblC1).rows.length -
        (pipelineValidTable defaultParseTime defaultParseNum tblC1).rows.length) ≤
      (dropAllNullRows tblC1).rows.length ∧
    0 < (pipelineValidTable defaultParseTime defaultParseNum tblC1).rows.length ∧
    validate_data defaultParseTime defaultParseNum tblC1 =
      { result := emptyTable, accepted := false, quarantined := true } :=
  ⟨of_decide_eq_true (by with_unfolding_all rfl),
   of_decide_eq_true (by with_unfolding_all rfl),
   of_decide_eq_true (by with_unfolding_all rfl)⟩

/-- C1 (amended): provided the cleaned table is non-empty and structurally
valid, `validate_data` quarantines and returns an empty table with
`accepted = false` exactly when the invalid count measured against the
*original* row length — original rows minus valid rows, so removed
all-empty rows count as invalid — strictly exceeds 50% of the original row
length; otherwise it returns the valid subset with
`accepted = (valid row count > 0)`. -/
theorem C1_amended (pt : Val → Option ℤ) (pn : Val → Option ℚ) (df : Table)
    (h1 : (dropAllNullRows df).rows ≠ [])
    (h2 : (validate_file_structure (dropAllNullRows df)).1 = true) :
    (validate_data pt pn df =
        { result := emptyTable, accepted := false, quarantined := true } ↔
      (df.rows.length : ℚ) -
          ((pipelineValidTable pt pn df).rows.length : ℚ) >
        (df.rows.length : ℚ) * 0.5) ∧
    (¬ ((df.rows.length : ℚ) -
          ((pipelineValidTable pt pn df).rows.length : ℚ) >
        (df.rows.length : ℚ) * 0.5) →
      validate_data pt pn df =
        { result := pipelineValidTable pt pn df,
          accepted := decide (0 < (pipelineValidTable pt pn df).rows.length),
          quarantined := false }) := by
  have e1 : (dropAllNullRows df).rows.isEmpty = false := by
    simpa using h1
  unfold validate_data pipelineValidTable
  simp only [e1, h2, Bool.not_true, Bool.false_eq_true, if_false]
  by_cases hq : (df.rows.length : ℚ) -
      (((validate_sensor_ranges (validate_required_fields
        (validate_data_types pt pn (dropAllNullRows df)).1).valid).valid.rows.length : ℚ)) >
      (df.rows.length : ℚ) * 0.5
  · rw [if_pos hq]
    exact ⟨⟨fun _ => hq, fun _ => rfl⟩, fun hc => absurd hq hc⟩
  · rw [if_neg hq]
    refine ⟨⟨fun hv => ?_, fun hc => absurd hc hq⟩, fun _ => rfl⟩
    have := congrArg ValidateOutcome.quarantined hv
    simp at this

/-- C1 witness: the amended theorem applied at the 10-row table with exactly
5 invalid rows and no empty rows — exactly 50% is not more than 50%, so the
file is accepted with the 5 valid rows. -/
theorem C1_witness :
    validate_data defaultParseTime defaultParseNum tblC1w =
      { result := pipelineValidTable defaultParseTime defaultParseNum tblC1w,
        accepted := decide (0 <
          (pipelineValidTable defaultParseTime defaultParseNum tblC1w).rows.length),
        quarantined := false } ∧
    (pipelineValidTable defaultParseTime defaultParseNum tblC1w).rows.length = 5 ∧
    tblC1w.rows.length = 10 := by
  refine ⟨(C1_amended defaultParseTime defaultParseNum tblC1w
      (of_decide_eq_true (by with_unfolding_all rfl))
      (of_decide_eq_true (by with_unfolding_all rfl))).2
      (of_decide_eq_true (by with_unfolding_all rfl)),
    of_decide_eq_true (by with_unfolding_all rfl),
    of_decide_eq_true (by with_unfolding_all rfl)⟩

/-! ### Claim C6 — outlier capping bounds -/

theorem mergeSort_sorted_rat (xs : List ℚ) :
    (xs.mergeSort (fun a b => decide (a ≤ b))).Pairwise
      (fun a b => decide (a ≤ b) = true) :=
  List.sorted_mergeSort
    (fun a b c hab hbc => by
      simp only [decide_eq_true_eq] at *
      exact le_trans hab hbc)
    (fun a b => by
      simp only [Bool.or_eq_true, decide_eq_true_eq]
      exact le_total a b)
    xs

theorem sorted_getD_mono (s : List ℚ)
    (hs : s.Pairwise (fun a b => decide (a ≤ b) = true))
    (i j : ℕ) (hij : i ≤ j) (hj : j < s.length) : s.getD i 0 ≤ s.getD j 0 := by
  rcases Nat.eq_or_lt_of_le hij with rfl | hlt
  · exact le_refl _
  · have hi : i < s.length := lt_trans hlt hj
    have h := List.pairwise_iff_get.mp hs ⟨i, hi⟩ ⟨j, hj⟩ hlt
    simp only [decide_eq_true_eq] at h
    rw [List.getD_eq_getElem s 0 hi, List.getD_eq_getElem s 0 hj]
    simpa [List.get_eq_getElem] using h

theorem quantileQ_mono (xs : List ℚ) (p q : ℚ) (hp : 0 ≤ p) (hpq : p ≤ q)
    (hq : q ≤ 1) (a b : ℚ) (ha : quantileQ xs p = some a)
    (hb : quantileQ xs q = some b) : a ≤ b := by
  unfold quantileQ at ha hb
  set s := xs.mergeSort (fun a b => decide (a ≤ b)) with hsdef
  have hs := mergeSort_sorted_rat xs
  rw [← hsdef] at hs
  simp only at ha hb
  cases hn : s.length with
  | zero => rw [hn] at ha; exact absurd ha (by simp)
  | succ m =>
      rw [hn] at ha hb
      simp only [Option.some.injEq] at ha hb
      have hq0 : (0:ℚ) ≤ q := le_trans hp hpq
      have hm0 : (0:ℚ) ≤ (m:ℚ) := by positivity
      have hpm0 : (0:ℚ) ≤ p * m := mul_nonneg hp hm0
      have hqm0 : (0:ℚ) ≤ q * m := mul_nonneg hq0 hm0
      have hple : p * (m:ℚ) ≤ q * m := mul_le_mul_of_nonneg_right hpq hm0
      have hqmle : q * (m:ℚ) ≤ m := by
        calc q * (m:ℚ) ≤ 1 * m := mul_le_mul_of_nonneg_right hq hm0
        _ = m := one_mul _
      have hfpz : (0:ℤ) ≤ ⌊p * (m:ℚ)⌋ := Int.floor_nonneg.mpr hpm0
      have hfqz : (0:ℤ) ≤ ⌊q * (m:ℚ)⌋ := Int.floor_nonneg.mpr hqm0
      set ip := ⌊p * (m:ℚ)⌋.toNat with hipdef
      set iq := ⌊q * (m:ℚ)⌋.toNat with hiqdef
      have hipc : ((ip : ℚ)) = ((⌊p * (m:ℚ)⌋ : ℤ) : ℚ) := by
        rw [hipdef]
        exact_mod_cast Int.toNat_of_nonneg hfpz
      have hiqc : ((iq : ℚ)) = ((⌊q * (m:ℚ)⌋ : ℤ) : ℚ) := by
        rw [hiqdef]
        exact_mod_cast Int.toNat_of_nonneg hfqz
      have hipLe : (ip:ℚ) ≤ p * m := by rw [hipc]; exact Int.floor_le _
      have hipGt : p * (m:ℚ) < ip + 1 := by rw [hipc]; exact Int.lt_floor_add_one _
      have hiqLe : (iq:ℚ) ≤ q * m := by rw [hiqc]; exact Int.floor_le _
      have hiqGt : q * (m:ℚ) < iq + 1 := by rw [hiqc]; exact Int.lt_floor_add_one _
      have hipm : ip ≤ m := by
        have h : (ip:ℚ) ≤ (m:ℚ) := le_trans hipLe (le_trans hple hqmle)
        exact_mod_cast h
      have hiqm : iq ≤ m := by
        have h : (iq:ℚ) ≤ (m:ℚ) := le_trans hiqLe hqmle
        exact_mod_cast h
      have hipiq : ip ≤ iq := by
        rw [hipdef, hiqdef]
        exact Int.toNat_le_toNat (Int.floor_le_floor hple)
      have hlen : ∀ k, k ≤ m → k < s.length := fun k hk => by
        rw [hn]; exact Nat.lt_succ_of_le hk
      rcases Nat.eq_or_lt_of_le hipiq with heq | hlt
      · rw [← heq] at hb
        have hd : s.getD ip 0 ≤ s.getD (min (ip+1) m) 0 :=
          sorted_getD_mono s hs ip (min (ip+1) m)
            (le_min (Nat.le_succ ip) hipm) (hlen _ (min_le_right _ _))
        rw [← ha, ← hb]
        nlinarith [hd, hple]
      · have hip1m : ip + 1 ≤ m := Nat.succ_le_of_lt (Nat.lt_of_lt_of_le hlt hiqm)
        have hminp : min (ip + 1) m = ip + 1 := min_eq_left hip1m
        have hdp : s.getD ip 0 ≤ s.getD (ip + 1) 0 :=
          sorted_getD_mono s hs ip (ip + 1) (Nat.le_succ ip) (hlen _ hip1m)
        have hdq : s.getD iq 0 ≤ s.getD (min (iq + 1) m) 0 :=
          sorted_getD_mono s hs iq (min (iq + 1) m)
            (le_min (Nat.le_succ iq) hiqm) (hlen _ (min_le_right _ _))
        have hmid : s.getD (ip + 1) 0 ≤ s.getD iq 0 :=
          sorted_getD_mono s hs (ip + 1) iq (Nat.succ_le_of_lt hlt) (hlen _ hiqm)
        have hfp1 : p * (m:ℚ) - ip ≤ 1 := by linarith
        have hfp0 : (0:ℚ) ≤ p * m - ip := by linarith
        have hfq0 : (0:ℚ) ≤ q * m - iq := by linarith
        have haUp : a ≤ s.getD (ip + 1) 0 := by
          rw [← ha, hminp]
          nlinarith [hdp]
        have hbLo : s.getD iq 0 ≤ b := by
          rw [← hb]
          nlinarith [hdq]
        linarith

theorem capColumnVals_length (cells out : List Val)
    (h : capColumnVals cells = Except.ok out) : out.length = cells.length := by
  unfold capColumnVals at h
  split at h
  · exact absurd h (by simp)
  · simp only at h
    split at h
    · injection h with h'
      rw [← h']
      simp
    · injection h with h'
      rw [← h']

theorem cap_cell_bounds (lo hi : ℚ) (hlh : lo ≤ hi) (w : Val) (x : ℚ)
    (h : capUpper hi (capLower lo w) = Val.num x) : lo ≤ x ∧ x ≤ hi := by
  cases w with
  | num y =>
      simp only [capLower] at h
      split_ifs at h with h1
      · simp only [capUpper] at h
        split_ifs at h with h2
        · exact absurd h2 (not_lt.mpr hlh)
        · injection h with h'
          exact ⟨le_of_eq h', h' ▸ hlh⟩
      · simp only [capUpper] at h
        split_ifs at h with h2
        · injection h with h'
          exact ⟨h' ▸ hlh, le_of_eq h'.symm⟩
        · injection h with h'
          exact ⟨h' ▸ not_lt.mp h1, h' ▸ not_lt.mp h2⟩
  | null => simp [capLower, capUpper] at h
  | str s => simp [capLower, capUpper] at h
  | time t => simp [capLower, capUpper] at h

theorem capColumnVals_mem_bounds (cells out : List Val) (q1 q3 : ℚ)
    (hq1 : quantileQ (cells.filterMap numCell) (1/4) = some q1)
    (hq3 : quantileQ (cells.filterMap numCell) (3/4) = some q3)
    (h : capColumnVals cells = Except.ok out) :
    ∀ v ∈ out, ∀ x, v = Val.num x →
      q1 - 3 * (q3 - q1) ≤ x ∧ x ≤ q3 + 3 * (q3 - q1) := by
  have hq13 : q1 ≤ q3 := quantileQ_mono _ (1/4) (3/4) (by norm_num) (by norm_num)
    (by norm_num) q1 q3 hq1 hq3
  have hlh : q1 - 3 * (q3 - q1) ≤ q3 + 3 * (q3 - q1) := by linarith
  unfold capColumnVals at h
  split at h
  · exact absurd h (by simp)
  · simp only at h
    rw [hq1, hq3] at h
    simp only [Except.ok.injEq] at h
    intro v hv x hvx
    rw [← h] at hv
    rw [List.map_map] at hv
    obtain ⟨w, _, rfl⟩ := List.mem_map.mp hv
    exact cap_cell_bounds _ _ hlh w x hvx

theorem setColumn_length (rows : List Row) (c : String) (cells : List Val)
    (h : cells.length = rows.length) :
    (setColumn rows c cells).length = rows.length := by
  unfold setColumn
  rw [List.length_zipWith, h, min_self]

theorem setColumn_col_self (rows : List Row) (c : String) (cells : List Val)
    (hlen : cells.length = rows.length) :
    (setColumn rows c cells).map (fun r => r.get c) = cells := by
  induction rows generalizing cells with
  | nil => cases cells with
      | nil => rfl
      | cons v vs => simp at hlen
  | cons r rest ih =>
      cases cells with
      | nil => simp at hlen
      | cons v vs =>
          simp only [setColumn, List.zipWith_cons_cons, List.map_cons]
          rw [Row.get_set_self r c v]
          congr 1
          exact ih vs (by simpa using hlen)

theorem setColumn_col_ne (rows : List Row) (c : String) (cells : List Val)
    (c' : String) (hne : c ≠ c') (hlen : cells.length = rows.length) :
    (setColumn rows c cells).map (fun r => r.get c') =
      rows.map (fun r => r.get c') := by
  induction rows generalizing cells with
  | nil => rfl
  | cons r rest ih =>
      cases cells with
      | nil => simp at hlen
      | cons v vs =>
          simp only [setColumn, List.zipWith_cons_cons, List.map_cons]
          rw [Row.get_set_ne r c c' v hne]
          congr 1
          exact ih vs (by simpa using hlen)

theorem setColumn_idx (rows : List Row) (c : String) (cells : List Val)
    (hlen : cells.length = rows.length) :
    (setColumn rows c cells).map Row.idx = rows.map Row.idx := by
  induction rows generalizing cells with
  | nil => rfl
  | cons r rest ih =>
      cases cells with
      | nil => simp at hlen
      | cons v vs =>
          simp only [setColumn, List.zipWith_cons_cons, List.map_cons]
          congr 1
          exact ih vs (by simpa using hlen)

theorem outlierStep_cases (rows : List Row) (tblCols : List String) (c : String)
    (rows1 : List Row)
    (h : (if decide (c ∈ tblCols) then
        Except.map (setColumn rows c) (capColumnVals (rows.map (fun r => r.get c)))
      else pure rows) = Except.ok rows1) :
    (rows1 = rows) ∨
    ∃ capped, capColumnVals (rows.map (fun r => r.get c)) = Except.ok capped ∧
      capped.length = rows.length ∧ rows1 = setColumn rows c capped := by
  split at h
  · cases hcap : capColumnVals (rows.map (fun r => r.get c)) with
    | error e => rw [hcap] at h; exact absurd h (by simp [Except.map])
    | ok capped =>
        rw [hcap] at h
        simp only [Except.map, Except.ok.injEq] at h
        refine Or.inr ⟨capped, rfl, ?_, h.symm⟩
        rw [capColumnVals_length _ _ hcap]
        simp
  · left
    simp only [pure, Except.pure, Except.ok.injEq] at h
    exact h.symm

theorem handle_outliers_go_length (l tblCols : List String)
    (rows rows' : List Row)
    (h : handle_outliers_go l tblCols rows = Except.ok rows') :
    rows'.length = rows.length := by
  induction l generalizing rows with
  | nil =>
      unfold handle_outliers_go at h
      injection h with h'
      rw [← h']
  | cons c rest ih =>
      unfold handle_outliers_go at h
      cases hstep : (if decide (c ∈ tblCols) then
          Except.map (setColumn rows c) (capColumnVals (rows.map (fun r => r.get c)))
        else pure rows) with
      | error e =>
          rw [hstep] at h
          exact absurd h (by simp)
      | ok rows1 =>
          rw [hstep] at h
          have h1 := ih rows1 h
          rcases outlierStep_cases rows tblCols c rows1 hstep with rfl | ⟨capped, _, hclen, rfl⟩
          · exact h1
          · rw [h1, setColumn_length rows c capped hclen]

theorem handle_outliers_go_col_ne (l tblCols : List String) (c : String)
    (hc : c ∉ l) (rows rows' : List Row)
    (h : handle_outliers_go l tblCols rows = Except.ok rows') :
    rows'.map (fun r => r.get c) = rows.map (fun r => r.get c) := by
  induction l generalizing rows with
  | nil =>
      unfold handle_outliers_go at h
      injection h with h'
      rw [← h']
  | cons d rest ih =>
      have hdc : d ≠ c := fun hh => hc (hh ▸ List.mem_cons_self d rest)
      have hcr : c ∉ rest := fun hh => hc (List.mem_cons_of_mem d hh)
      unfold handle_outliers_go at h
      cases hstep : (if decide (d ∈ tblCols) then
          Except.map (setColumn rows d) (capColumnVals (rows.map (fun r => r.get d)))
        else pure rows) with
      | error e =>
          rw [hstep] at h
          exact absurd h (by simp)
      | ok rows1 =>
          rw [hstep] at h
          have hrest := ih hcr rows1 h
          rcases outlierStep_cases rows tblCols d rows1 hstep with rfl | ⟨capped, _, hclen, rfl⟩
          · exact hrest
          · rw [hrest, setColumn_col_ne rows d capped c hdc hclen]

theorem handle_outliers_go_col_mem (l tblCols : List String) (hnd : l.Nodup)
    (c : String) (hc : c ∈ l) (hcc : c ∈ tblCols) (rows rows' : List Row)
    (h : handle_outliers_go l tblCols rows = Except.ok rows') :
    ∃ capped, capColumnVals (rows.map (fun r => r.get c)) = Except.ok capped ∧
      rows'.map (fun r => r.get c) = capped := by
  induction l generalizing rows with
  | nil => simp at hc
  | cons d rest ih =>
      unfold handle_outliers_go at h
      cases hstep : (if decide (d ∈ tblCols) then
          Except.map (setColumn rows d) (capColumnVals (rows.map (fun r => r.get d)))
        else pure rows) with
      | error e =>
          rw [hstep] at h
          exact absurd h (by simp)
      | ok rows1 =>
          rw [hstep] at h
          rcases List.mem_cons.mp hc with rfl | hcr
          · have hcnotrest : c ∉ rest := (List.nodup_cons.mp hnd).1
            have hdec : decide (c ∈ tblCols) = true := decide_eq_true hcc
            rw [hdec, if_pos rfl] at hstep
            cases hcap : capColumnVals (rows.map (fun r => r.get c)) with
            | error e => rw [hcap] at hstep; exact absurd hstep (by simp [Except.map])
            | ok capped =>
                rw [hcap] at hstep
                simp only [Except.map, Except.ok.injEq] at hstep
                have hclen : capped.length = rows.length := by
                  rw [capColumnVals_length _ _ hcap]
                  simp
                have hrest := handle_outliers_go_col_ne rest tblCols c hcnotrest rows1 rows' h
                refine ⟨capped, rfl, ?_⟩
                rw [hrest, ← hstep, setColumn_col_self rows c capped hclen]
          · have hdc : d ≠ c := fun hh => (List.nodup_cons.mp hnd).1 (hh ▸ hcr)
            have htail := (List.nodup_cons.mp hnd).2
            rcases outlierStep_cases rows tblCols d rows1 hstep with rfl | ⟨capped, _, hclen, rfl⟩
            · exact ih htail hcr rows1 h
            · have hpres := setColumn_col_ne rows d capped c hdc hclen
              have hres := ih htail hcr _ h
              rw [hpres] at hres
              exact hres

/-- C6: after `handle_outliers`, for every recognized metric column present,
every non-null value of the column lies within `[Q1 − 3·IQR, Q3 + 3·IQR]`
computed on the pre-capping column, and no row is removed. -/
theorem C6_outlier_capping (df out : Table) (c : String)
    (hc : c ∈ numeric_outlier_columns) (hcc : c ∈ df.cols)
    (hok : handle_outliers df = Except.ok out) (q1 q3 : ℚ)
    (hq1 : quantileQ ((df.col c).filterMap numCell) (1/4) = some q1)
    (hq3 : quantileQ ((df.col c).filterMap numCell) (3/4) = some q3) :
    out.rows.length = df.rows.length ∧
    ∀ v ∈ out.col c, ∀ x, v = Val.num x →
      q1 - 3 * (q3 - q1) ≤ x ∧ x ≤ q3 + 3 * (q3 - q1) := by
  unfold handle_outliers at hok
  cases hgo : handle_outliers_go numeric_outlier_columns df.cols df.rows with
  | error e =>
      rw [hgo] at hok
      exact absurd hok (by simp [Bind.bind, Except.bind])
  | ok rows' =>
      rw [hgo] at hok
      simp only [Bind.bind, Except.bind, pure, Except.pure, Except.ok.injEq] at hok
      constructor
      · rw [← hok]
        exact handle_outliers_go_length _ _ _ _ hgo
      · obtain ⟨capped, hcap, hcol⟩ :=
          handle_outliers_go_col_mem numeric_outlier_columns df.cols (by decide)
            c hc hcc df.rows rows' hgo
        have hcap' : capColumnVals (df.col c) = Except.ok capped := hcap
        intro v hv x hvx
        refine capColumnVals_mem_bounds (df.col c) capped q1 q3
          hq1 hq3 hcap' v ?_ x hvx
        rw [← hcol]
        rw [← hok] at hv
        exact hv

/-- C6 witness: the theorem applied to the 1,2,3,4,100 column, whose value
100 is capped to the upper bound 10 while row count stays 5. -/
theorem C6_witness :
    outC6.rows.length = tblC6.rows.length ∧
    ((2:ℚ) - 3 * (4 - 2) ≤ 10 ∧ (10:ℚ) ≤ 4 + 3 * (4 - 2)) := by
  have h := C6_outlier_capping tblC6 outC6 "stress_level" (by decide) (by decide)
    (of_decide_eq_true (by with_unfolding_all rfl)) 2 4
    (of_decide_eq_true (by with_unfolding_all rfl))
    (of_decide_eq_true (by with_unfolding_all rfl))
  exact ⟨h.1, h.2 (Val.num 10) (by decide) 10 rfl⟩

/-! ### Claim C8 — correlation matrix shape -/

theorem mem_upperPairs_iff (l : List String) (a b : String) :
    (a, b) ∈ upperPairs l ↔ [a, b].Sublist l := by
  induction l with
  | nil => simp [upperPairs]
  | cons c rest ih =>
      simp only [upperPairs, List.mem_append, List.mem_map, Prod.mk.injEq]
      constructor
      · rintro (⟨d, hd, rfl, rfl⟩ | h)
        · exact List.Sublist.cons₂ _ (List.singleton_sublist.mpr hd)
        · exact List.Sublist.cons c (ih.mp h)
      · intro hs
        rcases List.sublist_cons_iff.mp hs with h | ⟨r, hr, hrs⟩
        · exact Or.inr (ih.mpr h)
        · injection hr with h1 h2
          subst h1
          subst h2
          exact Or.inl ⟨b, List.singleton_sublist.mp hrs, rfl, rfl⟩

set_option maxHeartbeats 1000000 in
theorem metricKeyInj : ∀ p ∈ upperPairs metric_columns,
    ∀ q ∈ upperPairs metric_columns,
    p.1 ++ "_vs_" ++ p.2 = q.1 ++ "_vs_" ++ q.2 → p = q := by decide

theorem corr_matrix_mem (df : Table) (k : String) (v : ℚ)
    (h : (k, v) ∈ calculate_correlation_matrix df) :
    ∃ c1 c2, (c1, c2) ∈ upperPairs (availableMetrics df) ∧
      k = c1 ++ "_vs_" ++ c2 ∧ corrDefined df c1 c2 = true ∧
      v = corrValue df c1 c2 := by
  unfold calculate_correlation_matrix at h
  simp only at h
  split at h
  · simp at h
  · obtain ⟨p, hp, hpv⟩ := List.mem_filterMap.mp h
    split at hpv
    · injection hpv with hpv'
      injection hpv' with h1 h2
      exact ⟨p.1, p.2, hp, h1.symm, by assumption, h2.symm⟩
    · exact absurd hpv (by simp)

/-- C8: the correlation result is empty with fewer than two recognized metric
columns; every entry's key is an upper-triangle pair `c1_vs_c2` of the
available metrics; and a pair whose Pearson correlation is undefined (for
example one column constant on the paired sample) is absent from the map
entirely.  The dtype hypothesis records that metric columns are numeric,
which the analyzer is guaranteed by the transformer. -/
theorem C8_correlation_matrix (df : Table) (_hclean : metricColsCleanB df = true) :
    ((availableMetrics df).length < 2 → calculate_correlation_matrix df = []) ∧
    (∀ k v, (k, v) ∈ calculate_correlation_matrix df →
      ∃ c1 c2, [c1, c2].Sublist (availableMetrics df) ∧
        k = c1 ++ "_vs_" ++ c2 ∧ corrDefined df c1 c2 = true) ∧
    (∀ c1 c2, (c1, c2) ∈ upperPairs (availableMetrics df) →
      corrDefined df c1 c2 = false →
      ∀ v, (c1 ++ "_vs_" ++ c2, v) ∉ calculate_correlation_matrix df) := by
  have havail : (availableMetrics df).Sublist metric_columns :=
    List.filter_sublist metric_columns
  refine ⟨fun hlt => ?_, fun k v h => ?_, fun c1 c2 hcc hdef v hv => ?_⟩
  · unfold calculate_correlation_matrix
    rw [if_pos hlt]
  · obtain ⟨c1, c2, hp, hk, hd, _⟩ := corr_matrix_mem df k v h
    exact ⟨c1, c2, (mem_upperPairs_iff _ c1 c2).mp hp, hk, hd⟩
  · obtain ⟨d1, d2, hp, hk, hd, _⟩ := corr_matrix_mem df _ v hv
    have h1 : (c1, c2) ∈ upperPairs metric_columns :=
      (mem_upperPairs_iff _ c1 c2).mpr
        (((mem_upperPairs_iff _ c1 c2).mp hcc).trans havail)
    have h2 : (d1, d2) ∈ upperPairs metric_columns :=
      (mem_upperPairs_iff _ d1 d2).mpr
        (((mem_upperPairs_iff _ d1 d2).mp hp).trans havail)
    have := metricKeyInj (d1, d2) h2 (c1, c2) h1 hk.symm
    injection this with he1 he2
    subst he1
    subst he2
    rw [hd] at hdef
    cases hdef

/-- C8 witness: in `tblC8` the `stress_level` column is constant, so the
stress-vs-mood key is absent from the correlation map. -/
theorem C8_witness :
    ("stress_level_vs_mood_score", (0:ℚ)) ∉ calculate_correlation_matrix tblC8 := by
  have h := (C8_correlation_matrix tblC8 (by decide)).2.2 "stress_level" "mood_score"
    (by decide) (of_decide_eq_true (by with_unfolding_all rfl)) 0
  exact h

/-! ### Claim C10 — aggregated metric records -/

theorem assoc_unique {β : Type} (l : List (String × β))
    (hnd : (l.map Prod.fst).Nodup) (k : String) (v1 v2 : β)
    (h1 : (k, v1) ∈ l) (h2 : (k, v2) ∈ l) : v1 = v2 := by
  induction l with
  | nil => simp at h1
  | cons p rest ih =>
      simp only [List.map_cons, List.nodup_cons] at hnd
      rcases List.mem_cons.mp h1 with he1 | h1'
      · rcases List.mem_cons.mp h2 with he2 | h2'
        · rw [← he1] at he2
          injection he2 with _ hv
          exact hv.symm
        · exfalso
          apply hnd.1
          rw [← he1]
          exact List.mem_map.mpr ⟨(k, v2), h2', rfl⟩
      · rcases List.mem_cons.mp h2 with he2 | h2'
        · exfalso
          apply hnd.1
          rw [← he2]
          exact List.mem_map.mpr ⟨(k, v1), h1', rfl⟩
        · exact ih hnd.2 h1' h2'

theorem basic_stats_group_shape (df : Table) (gb : List String) (loc : String)
    (gs : List (String × MetricStats))
    (hg : (loc, gs) ∈ calculate_basic_statistics df gb) :
    ∃ rowsG : List Row, gs = (availableMetrics df).map (fun m =>
      (m, if (colNumsOfRows rowsG m).length > 0
          then basicStatsOf (colNumsOfRows rowsG m) else empty_stats)) := by
  unfold calculate_basic_statistics at hg
  split at hg
  · simp at hg
  · simp only at hg
    split at hg
    · simp at hg
    · obtain ⟨g, _, hEq⟩ := List.mem_map.mp hg
      injection hEq with _ h2
      exact ⟨g.2, h2.symm⟩

theorem basic_stats_keys_nodup (df : Table) (gb : List String) :
    ((calculate_basic_statistics df gb).map Prod.fst).Nodup := by
  unfold calculate_basic_statistics
  split
  · simp
  · simp only
    split
    · simp
    · split
      · rw [List.map_map, List.map_map]
        simp only [Function.comp_def]
        rw [List.map_id']
        exact List.nodup_dedup _
      · simp

theorem basic_stats_group_keys_nodup (df : Table) (gb : List String)
    (loc : String) (gs : List (String × MetricStats))
    (hg : (loc, gs) ∈ calculate_basic_statistics df gb) :
    (gs.map Prod.fst).Nodup := by
  obtain ⟨rowsG, rfl⟩ := basic_stats_group_shape df gb loc gs hg
  rw [List.map_map]
  simp only [Function.comp_def]
  rw [List.map_id']
  have h : metric_columns.Nodup := by decide
  unfold availableMetrics
  exact List.Nodup.filter _ h

theorem basic_stats_entry_cases (df : Table) (gb : List String) (loc : String)
    (gs : List (String × MetricStats)) (metric : String) (st : MetricStats)
    (hg : (loc, gs) ∈ calculate_basic_statistics df gb)
    (hm : (metric, st) ∈ gs) : st = empty_stats ∨ 0 < st.count := by
  obtain ⟨rowsG, rfl⟩ := basic_stats_group_shape df gb loc gs hg
  obtain ⟨m, _, hEq⟩ := List.mem_map.mp hm
  injection hEq with _ h2
  split at h2
  · right
    rw [← h2]
    simpa [basicStatsOf] using (by assumption : (colNumsOfRows rowsG m).length > 0)
  · exact Or.inl h2.symm

/-- C10: `generate_aggregated_metrics` emits a record for a (location,
metric) pair exactly when that metric has at least one non-null sample in
that location's group (`count > 0` in its basic-statistics entry); a metric
whose group entry has zero samples appears in the statistics as the all-zero
`empty_stats` structure and yields no record. -/
theorem C10_aggregated_iff (df : Table) (fn ds : String) (now : ℤ)
    (loc metric : String) (gs : List (String × MetricStats)) (st : MetricStats)
    (hg : (loc, gs) ∈ calculate_basic_statistics df ["location_id"])
    (hm : (metric, st) ∈ gs) :
    (0 < st.count ↔ ∃ rec ∈ generate_aggregated_metrics df fn ds now,
        rec.location_id = loc ∧ rec.metric_name = metric) ∧
    (st.count = 0 → st = empty_stats) := by
  constructor
  · constructor
    · intro hpos
      refine ⟨⟨loc, metric, st.minV, st.maxV, st.mean, st.std, st.count, fn, ds, now⟩,
        ?_, rfl, rfl⟩
      unfold generate_aggregated_metrics
      refine List.mem_flatMap.mpr ⟨(loc, gs), hg, ?_⟩
      refine List.mem_filterMap.mpr ⟨(metric, st), hm, ?_⟩
      rw [if_pos hpos]
    · rintro ⟨rec, hrec, hrl, hrm⟩
      unfold generate_aggregated_metrics at hrec
      obtain ⟨g, hgmem, hrec2⟩ := List.mem_flatMap.mp hrec
      obtain ⟨p, hpmem, hp⟩ := List.mem_filterMap.mp hrec2
      split at hp
      · injection hp with hp'
        rw [← hp'] at hrl hrm
        simp only at hrl hrm
        have hgmem' : (loc, g.2) ∈ calculate_basic_statistics df ["location_id"] := by
          rw [← hrl]
          simpa using hgmem
        have hgeq : g.2 = gs :=
          assoc_unique _ (basic_stats_keys_nodup df _) loc g.2 gs hgmem' hg
        have hpmem' : (metric, p.2) ∈ gs := by
          rw [← hgeq, ← hrm]
          simpa using hpmem
        have hpeq : p.2 = st :=
          assoc_unique gs (basic_stats_group_keys_nodup df _ loc gs hg)
            metric p.2 st hpmem' hm
        rw [← hpeq]
        assumption
      · exact absurd hp (by simp)
  · intro hzero
    rcases basic_stats_entry_cases df ["location_id"] loc gs metric st hg hm with he | hpos
    · exact he
    · rw [hzero] at hpos
      exact absurd hpos (by simp)

/-- C10 witness: in `tblC10` location A's stress entry has one sample, so a
record for (A, stress_level) exists. -/
theorem C10_witness :
    ∃ rec ∈ generate_aggregated_metrics tblC10 "f" "s" 0,
      rec.location_id = "A" ∧ rec.metric_name = "stress_level" := by
  refine (C10_aggregated_iff tblC10 "f" "s" 0 "A" "stress_level"
    [("stress_level", basicStatsOf [4])] (basicStatsOf [4])
    (of_decide_eq_true (by with_unfolding_all rfl))
    (of_decide_eq_true (by with_unfolding_all rfl))).1.mp
    (of_decide_eq_true (by with_unfolding_all rfl))

/-! ### Claim C9 — interpolation limits -/

theorem interpStep_cases (rows : List Row) (tblCols : List String) (c : String)
    (rows1 : List Row)
    (h : interpolateColStep rows tblCols c = Except.ok rows1) :
    rows1 = rows ∨
    ∃ cells, cellsToOpt (rows.map (fun r => r.get c)) = Except.ok cells ∧
      cells.length = rows.length ∧
      rows1 = setColumn rows c ((interpolate_fill cells).map optNumVal) := by
  unfold interpolateColStep at h
  split at h
  · split at h
    · exact absurd h (by simp)
    · rename_i cells hcells
      have hclen : cells.length = rows.length := by
        have hc2 := hcells
        unfold cellsToOpt at hc2
        split at hc2
        · exact absurd hc2 (by simp)
        · injection hc2 with h2
          rw [← h2]
          simp
      split at h
      · injection h with h'
        exact Or.inr ⟨cells, hcells, hclen, h'.symm⟩
      · injection h with h'
        exact Or.inl h'.symm
  · injection h with h'
    exact Or.inl h'.symm

theorem interpStep_mem_cases (rows : List Row) (tblCols : List String)
    (c : String) (rows1 : List Row) (hcc : c ∈ tblCols)
    (h : interpolateColStep rows tblCols c = Except.ok rows1) :
    ∃ cells, cellsToOpt (rows.map (fun r => r.get c)) = Except.ok cells ∧
      cells.length = rows.length ∧
      ((cells.countP (fun o => o.isNone) > 0 ∧
        rows1 = setColumn rows c ((interpolate_fill cells).map optNumVal)) ∨
       (cells.countP (fun o => o.isNone) = 0 ∧ rows1 = rows)) := by
  unfold interpolateColStep at h
  rw [decide_eq_true hcc, if_pos rfl] at h
  cases hcells : cellsToOpt (rows.map (fun r => r.get c)) with
  | error e => rw [hcells] at h; exact absurd h (by simp)
  | ok cells =>
      rw [hcells] at h
      have hclen : cells.length = rows.length := by
        have hc2 := hcells
        unfold cellsToOpt at hc2
        split at hc2
        · exact absurd hc2 (by simp)
        · injection hc2 with h2
          rw [← h2]
          simp
      have h2 : (if cells.countP (fun o => o.isNone) > 0 then
          Except.ok (setColumn rows c ((interpolate_fill cells).map optNumVal))
        else Except.ok rows) = Except.ok rows1 := h
      refine ⟨cells, rfl, hclen, ?_⟩
      by_cases hcnt : cells.countP (fun o => o.isNone) > 0
      · rw [if_pos hcnt] at h2
        injection h2 with h'
        exact Or.inl ⟨hcnt, h'.symm⟩
      · rw [if_neg hcnt] at h2
        injection h2 with h'
        exact Or.inr ⟨by omega, h'.symm⟩

theorem ffillGo_length (last : Option ℚ) (cells : List (Option ℚ)) :
    (ffillGo last cells).length = cells.length := by
  induction cells generalizing last with
  | nil => rfl
  | cons c rest ih =>
      cases c <;> simp [ffillGo, ih]

theorem linearInterpLimited_length (cells : List (Option ℚ)) :
    (linearInterpLimited cells).length = cells.length := by
  unfold linearInterpLimited
  simp only
  split
  · rfl
  · simp

theorem interpolate_fill_length (cells : List (Option ℚ)) :
    (interpolate_fill cells).length = cells.length := by
  unfold interpolate_fill bfill ffill
  rw [List.length_reverse, ffillGo_length, List.length_reverse, ffillGo_length,
    linearInterpLimited_length]

theorem interpolate_cols_go_col_ne (l tblCols : List String) (c : String)
    (hc : c ∉ l) (rows rows' : List Row)
    (h : interpolate_cols_go l tblCols rows = Except.ok rows') :
    rows'.map (fun r => r.get c) = rows.map (fun r => r.get c) := by
  induction l generalizing rows with
  | nil =>
      unfold interpolate_cols_go at h
      injection h with h'
      rw [← h']
  | cons d rest ih =>
      have hdc : d ≠ c := fun hh => hc (hh ▸ List.mem_cons_self d rest)
      have hcr : c ∉ rest := fun hh => hc (List.mem_cons_of_mem d hh)
      unfold interpolate_cols_go at h
      cases hstep : interpolateColStep rows tblCols d with
      | error e => rw [hstep] at h; exact absurd h (by simp)
      | ok rows1 =>
          rw [hstep] at h
          have hrest := ih hcr rows1 h
          rcases interpStep_cases rows tblCols d rows1 hstep with rfl | ⟨cells, _, hclen, rfl⟩
          · exact hrest
          · rw [hrest, setColumn_col_ne rows d _ c hdc
              (by rw [List.length_map, interpolate_fill_length, hclen])]

theorem interpolate_cols_go_col_mem (l tblCols : List String) (hnd : l.Nodup)
    (c : String) (hc : c ∈ l) (hcc : c ∈ tblCols) (rows rows' : List Row)
    (h : interpolate_cols_go l tblCols rows = Except.ok rows') :
    ∃ cells, cellsToOpt (rows.map (fun r => r.get c)) = Except.ok cells ∧
      ((cells.countP (fun o => o.isNone) > 0 ∧
        rows'.map (fun r => r.get c) = (interpolate_fill cells).map optNumVal) ∨
       (cells.countP (fun o => o.isNone) = 0 ∧
        rows'.map (fun r => r.get c) = rows.map (fun r => r.get c))) := by
  induction l generalizing rows with
  | nil => simp at hc
  | cons d rest ih =>
      unfold interpolate_cols_go at h
      cases hstep : interpolateColStep rows tblCols d with
      | error e => rw [hstep] at h; exact absurd h (by simp)
      | ok rows1 =>
          rw [hstep] at h
          rcases List.mem_cons.mp hc with rfl | hcr
          · have hcnotrest : c ∉ rest := (List.nodup_cons.mp hnd).1
            have hrest := interpolate_cols_go_col_ne rest tblCols c hcnotrest rows1 rows' h
            obtain ⟨cells, hcells, hclen, hcase⟩ :=
              interpStep_mem_cases rows tblCols c rows1 hcc hstep
            refine ⟨cells, hcells, ?_⟩
            rcases hcase with ⟨hcnt, rfl⟩ | ⟨hcnt, rfl⟩
            · refine Or.inl ⟨hcnt, ?_⟩
              rw [hrest, setColumn_col_self rows c _
                (by rw [List.length_map, interpolate_fill_length, hclen])]
            · exact Or.inr ⟨hcnt, hrest⟩
          · have hdc : d ≠ c := fun hh => (List.nodup_cons.mp hnd).1 (hh ▸ hcr)
            have htail := (List.nodup_cons.mp hnd).2
            rcases interpStep_cases rows tblCols d rows1 hstep with rfl | ⟨cells, _, hclen, rfl⟩
            · exact ih htail hcr rows1 h
            · have hpres := setColumn_col_ne rows d
                ((interpolate_fill cells).map optNumVal) c hdc
                (by rw [List.length_map, interpolate_fill_length, hclen])
              have hres := ih htail hcr _ h
              rw [hpres] at hres
              exact hres

/-- C9 counterexample: with a run of six consecutive missing values bounded
by 10 and 80 at evenly spaced timestamps, every one of the six is filled by
linear interpolation (20, 30, 40, 50, 60, 70) — `limit=5` with
`limit_direction='both'` limits each direction separately — rather than the
claim's "first 5 linearly, remainder forward-filled", which would leave 60 at
the sixth missing position. -/
theorem C9_counterexample :
    (interpolate_missing_values tblC9run6).map
        (fun t => t.col "temperature_celsius") =
      Except.ok [Val.num 10, Val.num 20, Val.num 30, Val.num 40, Val.num 50,
        Val.num 60, Val.num 70, Val.num 80] ∧
    (interpolate_missing_values tblC9run6).map
        (fun t => t.col "temperature_celsius") ≠
      Except.ok [Val.num 10, Val.num 20, Val.num 30, Val.num 40, Val.num 50,
        Val.num 60, Val.num 60, Val.num 80] :=
  ⟨of_decide_eq_true (by with_unfolding_all rfl),
   of_decide_eq_true (by with_unfolding_all rfl)⟩

/-- C9 (amended): each environmental column with a missing value is filled by
the limited linear interpolation followed by forward then backward fill,
where a missing value is linearly interpolated whenever it is within 5
positions of a known value on either side: a run of 3 bounded by 10 and 20
fills with 12.5, 15, 17.5; a run of 6 is entirely linearly filled; in a run
of 11 the middle value is beyond both limits and is forward-filled. -/
theorem C9_amended :
    (∀ df out c cells, interpolate_missing_values df = Except.ok out →
      c ∈ env_columns → c ∈ df.cols →
      cellsToOpt ((sortRowsByTs df).map (fun r => r.get c)) = Except.ok cells →
      cells.countP (fun o => o.isNone) > 0 →
      out.col c = (interpolate_fill cells).map optNumVal) ∧
    (interpolate_missing_values tblC9run3).map
        (fun t => t.col "temperature_celsius") =
      Except.ok [Val.num 10, Val.num (25/2), Val.num 15, Val.num (35/2), Val.num 20] ∧
    (interpolate_missing_values tblC9run6).map
        (fun t => t.col "temperature_celsius") =
      Except.ok [Val.num 10, Val.num 20, Val.num 30, Val.num 40, Val.num 50,
        Val.num 60, Val.num 70, Val.num 80] ∧
    (interpolate_missing_values tblC9run11).map
        (fun t => t.col "temperature_celsius") =
      Except.ok [Val.num 10, Val.num 20, Val.num 30, Val.num 40, Val.num 50,
        Val.num 60, Val.num 60, Val.num 80, Val.num 90, Val.num 100, Val.num 110,
        Val.num 120, Val.num 130] := by
  refine ⟨?_, of_decide_eq_true (by with_unfolding_all rfl),
    of_decide_eq_true (by with_unfolding_all rfl),
    of_decide_eq_true (by with_unfolding_all rfl)⟩
  intro df out c cells hok hcenv hccols hcells hcnt
  unfold interpolate_missing_values at hok
  cases hgo : interpolate_cols_go env_columns df.cols (sortRowsByTs df) with
  | error e =>
      rw [hgo] at hok
      exact absurd hok (by simp [Bind.bind, Except.bind])
  | ok rows' =>
      rw [hgo] at hok
      simp only [Bind.bind, Except.bind, pure, Except.pure, Except.ok.injEq] at hok
      obtain ⟨cells', hcells', hcase⟩ := interpolate_cols_go_col_mem env_columns
        df.cols (by decide) c hcenv hccols _ rows' hgo
      rw [hcells'] at hcells
      injection hcells with hce
      subst hce
      rcases hcase with ⟨_, hcol⟩ | ⟨hzero, _⟩
      · rw [← hok]
        exact hcol
      · rw [hzero] at hcnt
        exact absurd hcnt (by simp)

/-- C9 witness: the general fill equation applied at the run-of-3 table. -/
theorem C9_witness :
    outC9run3.col "temperature_celsius" =
      (interpolate_fill [some 10, none, none, none, some 20]).map optNumVal := by
  refine C9_amended.1 tblC9run3 outC9run3 "temperature_celsius"
    [some 10, none, none, none, some 20]
    (of_decide_eq_true (by with_unfolding_all rfl)) (by decide) (by decide)
    (of_decide_eq_true (by with_unfolding_all rfl)) (by decide)

/-! ### Claim C2 — transformer row preservation and ordering -/

theorem mem_ts_append (l l2 : List String) (h2 : "timestamp" ∉ l2) :
    ("timestamp" ∈ l ++ l2 ↔ "timestamp" ∈ l) := by
  rw [List.mem_append]
  exact or_iff_left h2

theorem std_rows_idx (df : Table) :
    (standardize_column_names df).rows.map Row.idx = df.rows.map Row.idx := by
  unfold standardize_column_names
  simp only [List.map_map]
  rfl

theorem mapM_ok_idx (f : Row → Except String Row) (l out : List Row)
    (hf : ∀ r o, f r = Except.ok o → o.idx = r.idx)
    (h : l.mapM f = Except.ok out) : out.map Row.idx = l.map Row.idx := by
  rw [← List.mapM'_eq_mapM] at h
  induction l generalizing out with
  | nil =>
      simp only [List.mapM', pure, Except.pure, Except.ok.injEq] at h
      rw [← h]
  | cons r rest ih =>
      simp only [List.mapM'] at h
      cases hr : f r with
      | error e => rw [hr] at h; simp [Bind.bind, Except.bind] at h
      | ok o =>
          rw [hr] at h
          cases hrest : rest.mapM' f with
          | error e => rw [hrest] at h; simp [Bind.bind, Except.bind] at h
          | ok os =>
              rw [hrest] at h
              simp only [Bind.bind, Except.bind, pure, Except.pure,
                Except.ok.injEq] at h
              rw [← h]
              simp only [List.map_cons]
              rw [hf r o hr, ih os hrest]

theorem mhRowStep_idx : ∀ r o, mhRowStep r = Except.ok o → o.idx = r.idx := by
  intro r o h
  unfold mhRowStep at h
  cases hm : mental_health_risk_row r with
  | error e => rw [hm] at h; simp [Bind.bind, Except.bind] at h
  | ok v =>
      rw [hm] at h
      simp only [Bind.bind, Except.bind, pure, Except.pure, Except.ok.injEq] at h
      rw [← h]
      rfl

theorem comfortRowStep_idx : ∀ r o, comfortRowStep r = Except.ok o → o.idx = r.idx := by
  intro r o h
  unfold comfortRowStep at h
  cases hm : comfort_index_row r with
  | error e => rw [hm] at h; simp [Bind.bind, Except.bind] at h
  | ok v =>
      rw [hm] at h
      simp only [Bind.bind, Except.bind, pure, Except.pure, Except.ok.injEq] at h
      rw [← h]
      rfl

theorem timeRowStep_idx : ∀ r o, timeRowStep r = Except.ok o → o.idx = r.idx := by
  intro r o h
  unfold timeRowStep at h
  cases hm : toDatetimeStrict (r.get "timestamp") with
  | error e => rw [hm] at h; simp [Bind.bind, Except.bind] at h
  | ok v =>
      rw [hm] at h
      simp only [Bind.bind, Except.bind, pure, Except.pure, Except.ok.injEq] at h
      rw [← h]
      rfl

theorem add_derived_env_facts (df : Table) :
    (add_derived_env df).rows.map Row.idx = df.rows.map Row.idx ∧
    ("timestamp" ∈ (add_derived_env df).cols ↔ "timestamp" ∈ df.cols) := by
  unfold add_derived_env
  simp only
  split
  · exact ⟨rfl, Iff.rfl⟩
  · refine ⟨?_, mem_ts_append df.cols _ (by decide)⟩
    simp only [List.map_map]
    rfl

theorem add_derived_mh_facts (df out : Table)
    (h : add_derived_mh df = Except.ok out) :
    out.rows.map Row.idx = df.rows.map Row.idx ∧
    ("timestamp" ∈ out.cols ↔ "timestamp" ∈ df.cols) := by
  unfold add_derived_mh at h
  split at h
  · cases hm : df.rows.mapM mhRowStep with
    | error e => rw [hm] at h; exact absurd h (by simp)
    | ok rows =>
        rw [hm] at h
        injection h with h'
        rw [← h']
        exact ⟨mapM_ok_idx mhRowStep df.rows rows mhRowStep_idx hm,
          mem_ts_append df.cols _ (by decide)⟩
  · injection h with h'
    rw [← h']
    exact ⟨rfl, Iff.rfl⟩

theorem add_derived_comfort_facts (df out : Table)
    (h : add_derived_comfort df = Except.ok out) :
    out.rows.map Row.idx = df.rows.map Row.idx ∧
    ("timestamp" ∈ out.cols ↔ "timestamp" ∈ df.cols) := by
  unfold add_derived_comfort at h
  split at h
  · cases hm : df.rows.mapM comfortRowStep with
    | error e => rw [hm] at h; exact absurd h (by simp)
    | ok rows =>
        rw [hm] at h
        injection h with h'
        rw [← h']
        exact ⟨mapM_ok_idx comfortRowStep df.rows rows comfortRowStep_idx hm,
          mem_ts_append df.cols _ (by decide)⟩
  · injection h with h'
    rw [← h']
    exact ⟨rfl, Iff.rfl⟩

theorem add_derived_time_facts (df out : Table)
    (h : add_derived_time df = Except.ok out) :
    out.rows.map Row.idx = df.rows.map Row.idx ∧
    ("timestamp" ∈ out.cols ↔ "timestamp" ∈ df.cols) := by
  unfold add_derived_time at h
  split at h
  · cases hm : df.rows.mapM timeRowStep with
    | error e => rw [hm] at h; exact absurd h (by simp)
    | ok rows =>
        rw [hm] at h
        injection h with h'
        rw [← h']
        exact ⟨mapM_ok_idx timeRowStep df.rows rows timeRowStep_idx hm,
          mem_ts_append df.cols _ (by decide)⟩
  · injection h with h'
    rw [← h']
    exact ⟨rfl, Iff.rfl⟩

theorem add_derived_columns_facts (df out : Table)
    (h : add_derived_columns df = Except.ok out) :
    out.rows.map Row.idx = df.rows.map Row.idx ∧
    ("timestamp" ∈ out.cols ↔ "timestamp" ∈ df.cols) := by
  unfold add_derived_columns at h
  cases h2 : add_derived_mh (add_derived_env df) with
  | error e => rw [h2] at h; exact absurd h (by simp)
  | ok d2 =>
      rw [h2] at h
      simp only at h
      cases h3 : add_derived_comfort d2 with
      | error e => rw [h3] at h; exact absurd h (by simp)
      | ok d3 =>
          rw [h3] at h
          simp only at h
          have f1 := add_derived_env_facts df
          have f2 := add_derived_mh_facts _ _ h2
          have f3 := add_derived_comfort_facts _ _ h3
          have f4 := add_derived_time_facts _ _ h
          exact ⟨by rw [f4.1, f3.1, f2.1, f1.1],
            (f4.2.trans (f3.2.trans (f2.2.trans f1.2)))⟩

theorem normalizeTemp_facts (df out : Table) (h : normalizeTemp df = Except.ok out) :
    out.rows.map Row.idx = df.rows.map Row.idx ∧ out.cols = df.cols := by
  unfold normalizeTemp at h
  split at h
  · cases hm : colMean (df.col "temperature_celsius") with
    | error e => rw [hm] at h; exact absurd h (by simp)
    | ok o =>
        rw [hm] at h
        cases o with
        | none =>
            simp only [Except.ok.injEq] at h
            rw [← h]
            exact ⟨rfl, rfl⟩
        | some q =>
            simp only at h
            split at h <;> (simp only [Except.ok.injEq] at h; rw [← h])
            · refine ⟨?_, rfl⟩
              unfold Table.mapCol
              simp only [List.map_map]
              rfl
            · exact ⟨rfl, rfl⟩
  · simp only [Except.ok.injEq] at h
    rw [← h]
    exact ⟨rfl, rfl⟩

theorem normalizeHumidity_facts (df out : Table)
    (h : normalizeHumidity df = Except.ok out) :
    out.rows.map Row.idx = df.rows.map Row.idx ∧ out.cols = df.cols := by
  unfold normalizeHumidity at h
  split at h
  · cases hm : colMax (df.col "humidity_percent") with
    | error e => rw [hm] at h; exact absurd h (by simp)
    | ok o =>
        rw [hm] at h
        cases o with
        | none =>
            simp only [Except.ok.injEq] at h
            rw [← h]
            exact ⟨rfl, rfl⟩
        | some q =>
            simp only at h
            split at h <;> (simp only [Except.ok.injEq] at h; rw [← h])
            · refine ⟨?_, rfl⟩
              unfold Table.mapCol
              simp only [List.map_map]
              rfl
            · exact ⟨rfl, rfl⟩
  · simp only [Except.ok.injEq] at h
    rw [← h]
    exact ⟨rfl, rfl⟩

theorem normalize_units_facts (df out : Table)
    (h : normalize_units df = Except.ok out) :
    out.rows.map Row.idx = df.rows.map Row.idx ∧ out.cols = df.cols := by
  unfold normalize_units at h
  cases h1 : normalizeTemp df with
  | error e => rw [h1] at h; exact absurd h (by simp)
  | ok d1 =>
      rw [h1] at h
      simp only at h
      have f1 := normalizeTemp_facts df d1 h1
      have f2 := normalizeHumidity_facts d1 out h
      exact ⟨by rw [f2.1, f1.1], by rw [f2.2, f1.2]⟩

theorem handle_outliers_go_idx (l tblCols : List String) (rows rows' : List Row)
    (h : handle_outliers_go l tblCols rows = Except.ok rows') :
    rows'.map Row.idx = rows.map Row.idx := by
  induction l generalizing rows with
  | nil =>
      unfold handle_outliers_go at h
      injection h with h'
      rw [← h']
  | cons c rest ih =>
      unfold handle_outliers_go at h
      cases hstep : (if decide (c ∈ tblCols) then
          Except.map (setColumn rows c) (capColumnVals (rows.map (fun r => r.get c)))
        else pure rows) with
      | error e => rw [hstep] at h; exact absurd h (by simp)
      | ok rows1 =>
          rw [hstep] at h
          have h1 := ih rows1 h
          rcases outlierStep_cases rows tblCols c rows1 hstep with rfl | ⟨capped, _, hclen, rfl⟩
          · exact h1
          · rw [h1, setColumn_idx rows c capped hclen]

theorem handle_outliers_facts (df out : Table)
    (h : handle_outliers df = Except.ok out) :
    out.rows.map Row.idx = df.rows.map Row.idx ∧ out.cols = df.cols := by
  unfold handle_outliers at h
  cases hgo : handle_outliers_go numeric_outlier_columns df.cols df.rows with
  | error e => rw [hgo] at h; exact absurd h (by simp [Bind.bind, Except.bind])
  | ok rows' =>
      rw [hgo] at h
      simp only [Bind.bind, Except.bind, pure, Except.pure, Except.ok.injEq] at h
      rw [← h]
      exact ⟨handle_outliers_go_idx _ _ _ _ hgo, rfl⟩

theorem interpolate_cols_go_idx (l tblCols : List String) (rows rows' : List Row)
    (h : interpolate_cols_go l tblCols rows = Except.ok rows') :
    rows'.map Row.idx = rows.map Row.idx := by
  induction l generalizing rows with
  | nil =>
      unfold interpolate_cols_go at h
      injection h with h'
      rw [← h']
  | cons c rest ih =>
      unfold interpolate_cols_go at h
      cases hstep : interpolateColStep rows tblCols c with
      | error e => rw [hstep] at h; exact absurd h (by simp)
      | ok rows1 =>
          rw [hstep] at h
          have h1 := ih rows1 h
          rcases interpStep_cases rows tblCols c rows1 hstep with rfl | ⟨cells, _, hclen, rfl⟩
          · exact h1
          · rw [h1, setColumn_idx rows c _
              (by rw [List.length_map, interpolate_fill_length, hclen])]

theorem tsValLe_trans (a b c : Val) (hab : tsValLe a b = true)
    (hbc : tsValLe b c = true) : tsValLe a c = true := by
  cases a <;> cases b <;> cases c <;> simp_all [tsValLe] <;> omega

theorem tsValLe_total (a b : Val) : (tsValLe a b || tsValLe b a) = true := by
  cases a <;> cases b <;> simp [tsValLe] <;> omega

theorem tsLe_trans (a b c : Row) (hab : tsLe a b = true) (hbc : tsLe b c = true) :
    tsLe a c = true :=
  tsValLe_trans (a.get "timestamp") (b.get "timestamp") (c.get "timestamp") hab hbc

theorem tsLe_total (a b : Row) : (tsLe a b || tsLe b a) = true :=
  tsValLe_total (a.get "timestamp") (b.get "timestamp")

theorem mergeSort_tsLe_pairwise (rows : List Row) :
    (rows.mergeSort tsLe).Pairwise (fun a b => tsLe a b = true) :=
  List.sorted_mergeSort tsLe_trans tsLe_total rows

theorem pairwise_tsLe_of_map_eq (l1 l2 : List Row)
    (h : l1.map (fun r => r.get "timestamp") = l2.map (fun r => r.get "timestamp"))
    (hp : l2.Pairwise (fun a b => tsLe a b = true)) :
    l1.Pairwise (fun a b => tsLe a b = true) := by
  have h2 : (l2.map (fun r => r.get "timestamp")).Pairwise
      (fun a b => tsValLe a b = true) := List.pairwise_map.mpr hp
  rw [← h] at h2
  exact List.pairwise_map.mp h2

theorem add_metadata_idx (df : Table) (fn ds : String) (now : ℤ) :
    (add_metadata df fn ds now).rows.map Row.idx = df.rows.map Row.idx := by
  unfold add_metadata
  simp only [List.map_map]
  rfl

theorem add_metadata_ts (df : Table) (fn ds : String) (now : ℤ) :
    (add_metadata df fn ds now).rows.map (fun r => r.get "timestamp") =
      df.rows.map (fun r => r.get "timestamp") := by
  unfold add_metadata
  simp only [List.map_map]
  refine List.map_congr_left (fun r _ => ?_)
  simp only [Function.comp]
  rw [Row.get_set_ne _ _ _ _ (by decide), Row.get_set_ne _ _ _ _ (by decide),
    Row.get_set_ne _ _ _ _ (by decide), Row.get_set_ne _ _ _ _ (by decide)]

theorem interpolate_missing_values_facts (df out : Table)
    (h : interpolate_missing_values df = Except.ok out) :
    out.rows.map Row.idx = (sortRowsByTs df).map Row.idx ∧
    out.rows.map (fun r => r.get "timestamp") =
      (sortRowsByTs df).map (fun r => r.get "timestamp") ∧
    out.cols = df.cols := by
  unfold interpolate_missing_values at h
  cases hgo : interpolate_cols_go env_columns df.cols (sortRowsByTs df) with
  | error e => rw [hgo] at h; exact absurd h (by simp [Bind.bind, Except.bind])
  | ok rows' =>
      rw [hgo] at h
      simp only [Bind.bind, Except.bind, pure, Except.pure, Except.ok.injEq] at h
      rw [← h]
      exact ⟨interpolate_cols_go_idx _ _ _ _ hgo,
        interpolate_cols_go_col_ne env_columns df.cols "timestamp" (by decide) _ _ hgo,
        rfl⟩

/-- C2 counterexample: on two rows with out-of-order timestamps the
transformer returns the rows sorted by timestamp — the original index order
[0, 1] comes back as [1, 0], so the internal sort permanently reorders the
returned table. -/
theorem C2_counterexample :
    (transform_data tblC2 "f" "s" 0).map (fun t => t.rows.map Row.idx) =
      Except.ok [1, 0] ∧
    tblC2.rows.map Row.idx = [0, 1] ∧
    ([1, 0] : List ℕ) ≠ [0, 1] :=
  ⟨of_decide_eq_true (by with_unfolding_all rfl),
   of_decide_eq_true (by with_unfolding_all rfl),
   of_decide_eq_true (by with_unfolding_all rfl)⟩

/-- C2 (amended): `transform_data` never drops rows — the output row count
equals the input row count and the output rows are a permutation of the
input rows by original index; but the timestamp sort performed for
interpolation is permanent: when a timestamp column is present the returned
table is ordered by timestamp, and only when it is absent is the original
order preserved. -/
theorem C2_amended (df : Table) (fn ds : String) (now : ℤ) (out : Table)
    (hok : transform_data df fn ds now = Except.ok out) :
    out.rows.length = df.rows.length ∧
    (out.rows.map Row.idx).Perm (df.rows.map Row.idx) ∧
    ("timestamp" ∈ (standardize_column_names df).cols →
      out.rows.Pairwise (fun a b => tsLe a b = true)) ∧
    ("timestamp" ∉ (standardize_column_names df).cols →
      out.rows.map Row.idx = df.rows.map Row.idx) := by
  unfold transform_data at hok
  simp only at hok
  cases h2 : add_derived_columns (standardize_column_names df) with
  | error e => rw [h2] at hok; exact absurd hok (by simp [Bind.bind, Except.bind])
  | ok s2 =>
  rw [h2] at hok
  simp only [Bind.bind, Except.bind] at hok
  cases h3 : normalize_units s2 with
  | error e => rw [h3] at hok; exact absurd hok (by simp)
  | ok s3 =>
  rw [h3] at hok
  simp only at hok
  cases h4 : handle_outliers s3 with
  | error e => rw [h4] at hok; exact absurd hok (by simp)
  | ok s4 =>
  rw [h4] at hok
  simp only at hok
  cases h5 : interpolate_missing_values s4 with
  | error e => rw [h5] at hok; exact absurd hok (by simp)
  | ok s5 =>
  rw [h5] at hok
  simp only [pure, Except.pure, Except.ok.injEq] at hok
  have f2 := add_derived_columns_facts _ _ h2
  have f3 := normalize_units_facts _ _ h3
  have f4 := handle_outliers_facts _ _ h4
  have f5 := interpolate_missing_values_facts _ _ h5
  have hmeta_idx : out.rows.map Row.idx = s5.rows.map Row.idx := by
    rw [← hok]
    exact add_metadata_idx s5 fn ds now
  have hchain : s4.rows.map Row.idx = df.rows.map Row.idx := by
    rw [f4.1, f3.1, f2.1, std_rows_idx]
  have hperm : (out.rows.map Row.idx).Perm (df.rows.map Row.idx) := by
    rw [hmeta_idx, f5.1]
    unfold sortRowsByTs
    split
    · rw [← hchain]
      exact (List.mergeSort_perm s4.rows tsLe).map Row.idx
    · rw [hchain]
  have htsmem : ("timestamp" ∈ s4.cols ↔
      "timestamp" ∈ (standardize_column_names df).cols) := by
    rw [f4.2, f3.2]
    exact f2.2
  refine ⟨?_, hperm, ?_, ?_⟩
  · have := hperm.length_eq
    simpa using this
  · intro hts
    have hmem : "timestamp" ∈ s4.cols := htsmem.mpr hts
    have hsort : sortRowsByTs s4 = s4.rows.mergeSort tsLe := by
      unfold sortRowsByTs
      rw [decide_eq_true hmem, if_pos rfl]
    have hmapts : out.rows.map (fun r => r.get "timestamp") =
        (s4.rows.mergeSort tsLe).map (fun r => r.get "timestamp") := by
      rw [← hok, add_metadata_ts, f5.2.1, hsort]
    exact pairwise_tsLe_of_map_eq _ _ hmapts (mergeSort_tsLe_pairwise s4.rows)
  · intro hts
    have hmem : "timestamp" ∉ s4.cols := fun hh => hts (htsmem.mp hh)
    have hsort : sortRowsByTs s4 = s4.rows := by
      unfold sortRowsByTs
      rw [decide_eq_false hmem, if_neg (by simp)]
    rw [hmeta_idx, f5.1, hsort, hchain]

/-- C2 witness: the amended theorem instantiated at the two-row out-of-order
table, whose transformed output is the timestamp-sorted permutation. -/
theorem C2_witness :
    transform_data tblC2 "f" "s" 0 = Except.ok outC2w ∧
    (outC2w.rows.length = tblC2.rows.length ∧
     (outC2w.rows.map Row.idx).Perm (tblC2.rows.map Row.idx) ∧
     ("timestamp" ∈ (standardize_column_names tblC2).cols →
       outC2w.rows.Pairwise (fun a b => tsLe a b = true)) ∧
     ("timestamp" ∉ (standardize_column_names tblC2).cols →
       outC2w.rows.map Row.idx = tblC2.rows.map Row.idx)) :=
  have h : transform_data tblC2 "f" "s" 0 = Except.ok outC2w :=
    of_decide_eq_true (by with_unfolding_all rfl)
  ⟨h, C2_amended tblC2 "f" "s" 0 outC2w h⟩
